import Mathlib

/-!
Verification of the CloudUtil storage layer (cloud_manager.py, aws_s3_manager.py,
render_file_manager.py) of the PythonLib repository.

The development has three parts:

1. A model of the Python `json` module restricted to the values the manager
   round-trips: `null`, booleans, integers, strings, arrays and objects
   (IEEE floats are outside the embedding).  `dumps` mirrors
   `json.dumps` with its default settings (separators and ASCII escaping),
   `loads` mirrors `json.loads` as a recursive-descent reader of the same
   grammar fragment, written with explicit fuel so that every definition is
   structurally recursive and computable.

2. A model of the two backend adapters and the local filesystem.  External
   services (boto3, the requests library, the Render file service) are modelled
   as response policies: functions from request data to the outcome the remote
   side produces (success, or the detail string of the exception the client
   library raised).  Each adapter call also reports the list of backend I/O
   events it performed, so that claims about "no network call is attempted"
   become statements about that event list.

3. The cloud_manager routing layer itself (get_host, the per-backend
   read/write/upload/download helpers and the public put/get/upload/download
   functions), translated branch by branch from the Python source.
-/

namespace PyJson

/-- JSON-representable values as handled by the Python json module, minus
floats: dictionaries keep insertion order, so objects are association lists. -/
inductive JsonValue : Type where
  | null : JsonValue
  | bool : Bool → JsonValue
  | int : Int → JsonValue
  | str : String → JsonValue
  | arr : List JsonValue → JsonValue
  | obj : List (String × JsonValue) → JsonValue

/-- True exactly on values that are Python `str` instances. -/
def JsonValue.isStr : JsonValue → Bool
  | .str _ => true
  | _ => false

/-- Decimal digit to character, as Python int formatting produces. -/
def digitChar (n : Nat) : Char := Char.ofNat (48 + n)

/-- Lowercase hexadecimal digit, as json.dumps \uXXXX escapes produce. -/
def hexChar (n : Nat) : Char := if n < 10 then Char.ofNat (48 + n) else Char.ofNat (87 + n)

/-- ASCII decimal digit test. -/
def isDigitCh (c : Char) : Bool := 48 ≤ c.toNat && c.toNat ≤ 57

/-- JSON whitespace as accepted by the Python scanner. -/
def isWsCh (c : Char) : Bool := c = ' ' || c = '\t' || c = '\n' || c = '\r'

/-- Value of a hexadecimal digit character, if it is one. -/
def hexVal (c : Char) : Option Nat :=
  if 48 ≤ c.toNat ∧ c.toNat ≤ 57 then some (c.toNat - 48)
  else if 97 ≤ c.toNat ∧ c.toNat ≤ 102 then some (c.toNat - 87)
  else if 65 ≤ c.toNat ∧ c.toNat ≤ 70 then some (c.toNat - 55)
  else none

/-- Four lowercase hex digits, most significant first. -/
def hex4 (n : Nat) : List Char :=
  [hexChar (n / 4096 % 16), hexChar (n / 256 % 16), hexChar (n / 16 % 16), hexChar (n % 16)]

/-- json.dumps escaping of a single character with ensure_ascii=True: the
two-character shorthands, \uXXXX for other control and non-ASCII characters,
a UTF-16 surrogate pair for astral characters, everything else literal. -/
def escapeChar (c : Char) : List Char :=
  if c = '"' then ['\\', '"']
  else if c = '\\' then ['\\', '\\']
  else if c = Char.ofNat 8 then ['\\', 'b']
  else if c = Char.ofNat 12 then ['\\', 'f']
  else if c = '\n' then ['\\', 'n']
  else if c = '\r' then ['\\', 'r']
  else if c = '\t' then ['\\', 't']
  else if c.toNat < 32 ∨ 126 < c.toNat then
    if c.toNat < 65536 then '\\' :: 'u' :: hex4 c.toNat
    else '\\' :: 'u' :: hex4 (55296 + (c.toNat - 65536) / 1024) ++
         '\\' :: 'u' :: hex4 (56320 + (c.toNat - 65536) % 1024)
  else [c]

/-- Escape every character of a string body. -/
def escList : List Char → List Char
  | [] => []
  | c :: cs => escapeChar c ++ escList cs

/-- Decimal digits of a natural number, most significant first (fuelled). -/
def natCharsAux : Nat → Nat → List Char
  | 0, _ => []
  | f + 1, n => if n < 10 then [digitChar n] else natCharsAux f (n / 10) ++ [digitChar (n % 10)]

/-- Decimal digits of a natural number, most significant first. -/
def natChars (n : Nat) : List Char := natCharsAux (n + 1) n

/-- Decimal representation of a Python int, as repr produces it. -/
def intChars (n : Int) : List Char :=
  if n < 0 then '-' :: natChars n.natAbs else natChars n.toNat

/-- The keyword literals of the JSON grammar, as character lists. -/
def nullChars : List Char := ['n', 'u', 'l', 'l']

/-- Characters of the true keyword. -/
def trueChars : List Char := ['t', 'r', 'u', 'e']

/-- Characters of the false keyword. -/
def falseChars : List Char := ['f', 'a', 'l', 's', 'e']

mutual
/-- Serialiser mirroring json.dumps with its default separators (", " between
items, ": " after keys) and ensure_ascii escaping.  An array dumps as the
opening bracket, the first element, then its tail; the tail emits
", item" repeatedly and the closing bracket, and likewise for objects. -/
def dumpsV : JsonValue → List Char
  | .null => nullChars
  | .bool true => trueChars
  | .bool false => falseChars
  | .int n => intChars n
  | .str s => '"' :: escList s.data ++ ['"']
  | .arr [] => ['[', ']']
  | .arr (x :: xs) => '[' :: (dumpsV x ++ dumpsTL xs)
  | .obj [] => ['{', '}']
  | .obj ((k, x) :: kvs) =>
    '{' :: ('"' :: escList k.data ++ '"' :: ':' :: ' ' :: (dumpsV x ++ dumpsTO kvs))

/-- Rest of a dumped array after its first element. -/
def dumpsTL : List JsonValue → List Char
  | [] => [']']
  | x :: xs => ',' :: ' ' :: (dumpsV x ++ dumpsTL xs)

/-- Rest of a dumped object after its first member. -/
def dumpsTO : List (String × JsonValue) → List Char
  | [] => ['}']
  | (k, x) :: kvs => ',' :: ' ' :: ('"' :: escList k.data ++ '"' :: ':' :: ' ' :: (dumpsV x ++ dumpsTO kvs))
end

/-- Model of json.dumps with default options, restricted to float-free values. -/
def dumps (v : JsonValue) : String := String.mk (dumpsV v)

/-- Drop leading JSON whitespace, as the Python scanner does between tokens. -/
def skipWs (l : List Char) : List Char := l.dropWhile isWsCh

/-- Literal prefix test used to recognise null, true and false. -/
def startsCh : List Char → List Char → Bool
  | [], _ => true
  | _ :: _, [] => false
  | p :: ps, c :: cs => if p = c then startsCh ps cs else false

/-- Longest digit prefix of the input and the remainder. -/
def takeDigits : List Char → List Char × List Char
  | [] => ([], [])
  | c :: cs =>
    if isDigitCh c then
      let p := takeDigits cs
      (c :: p.1, p.2)
    else ([], c :: cs)

/-- Numeric value of one digit character. -/
def digVal (c : Char) : Nat := c.toNat - 48

/-- Value of a most-significant-first digit list. -/
def foldDigits (ds : List Char) : Nat := ds.foldl (fun a c => a * 10 + digVal c) 0

/-- Does the input continue a number into float territory?  The embedding
covers the integer fragment of JSON only, so a fractional part or exponent
makes the model parser give up rather than produce a float. -/
def isFloatStart : List Char → Bool
  | [] => false
  | c :: _ => c = '.' || c = 'e' || c = 'E'

/-- Parse an unsigned integer literal. -/
def parseNatNum (input : List Char) : Option (Nat × List Char) :=
  let p := takeDigits input
  if p.1 = [] then none
  else if isFloatStart p.2 then none
  else some (foldDigits p.1, p.2)

/-- Parse a JSON number (integer fragment: optional minus, then digits). -/
def parseNumber (input : List Char) : Option (JsonValue × List Char) :=
  if input.head? = some '-' then
    (parseNatNum input.tail).map (fun p => (.int (-(p.1 : Int)), p.2))
  else
    (parseNatNum input).map (fun p => (.int ((p.1 : Int)), p.2))

/-- Parse four hex digits. -/
def parseHex4 (input : List Char) : Option (Nat × List Char) :=
  match input with
  | a :: b :: c :: d :: rest =>
    match hexVal a, hexVal b, hexVal c, hexVal d with
    | some va, some vb, some vc, some vd => some (va * 4096 + vb * 256 + vc * 16 + vd, rest)
    | _, _, _, _ => none
  | _ => none

/-- Scan a JSON string body after the opening quote: strict about raw control
characters, understands the short escapes, \uXXXX and UTF-16 surrogate pairs
(a lone surrogate is a parse failure here, while Python would keep it; the
difference is invisible on dumps output, which always pairs surrogates). -/
def parseStrBody : Nat → List Char → List Char → Option (String × List Char)
  | 0, _, _ => none
  | _ + 1, _, [] => none
  | f + 1, acc, c :: input2 =>
    if c = '"' then some (String.mk acc, input2)
    else if c = '\\' then
      match input2 with
      | [] => none
      | e :: input3 =>
        if e = '"' then parseStrBody f (acc ++ ['"']) input3
        else if e = '\\' then parseStrBody f (acc ++ ['\\']) input3
        else if e = '/' then parseStrBody f (acc ++ ['/']) input3
        else if e = 'b' then parseStrBody f (acc ++ [Char.ofNat 8]) input3
        else if e = 'f' then parseStrBody f (acc ++ [Char.ofNat 12]) input3
        else if e = 'n' then parseStrBody f (acc ++ ['\n']) input3
        else if e = 'r' then parseStrBody f (acc ++ ['\r']) input3
        else if e = 't' then parseStrBody f (acc ++ ['\t']) input3
        else if e = 'u' then
          match parseHex4 input3 with
          | none => none
          | some (n, input4) =>
            if 55296 ≤ n ∧ n ≤ 56319 then
              match input4 with
              | e2 :: u2 :: input5 =>
                if e2 = '\\' ∧ u2 = 'u' then
                  (match parseHex4 input5 with
                   | none => none
                   | some (m, input6) =>
                     if 56320 ≤ m ∧ m ≤ 57343 then
                       parseStrBody f (acc ++ [Char.ofNat (65536 + (n - 55296) * 1024 + (m - 56320))]) input6
                     else none)
                else none
              | _ => none
            else if 56320 ≤ n ∧ n ≤ 57343 then none
            else parseStrBody f (acc ++ [Char.ofNat n]) input4
        else none
    else if c.toNat < 32 then none
    else parseStrBody f (acc ++ [c]) input2

/-- Parse results, mirroring the three request shapes. -/
inductive PRes : Type where
  | rv : JsonValue → PRes
  | rl : List JsonValue → PRes
  | ro : List (String × JsonValue) → PRes

/-- Parser modes, mirroring the three request shapes. -/
inductive PMode : Type where
  | mv : PMode
  | ml : PMode
  | mo : PMode

/-- Fuelled recursive-descent reader for the grammar fragment dumps emits,
with the whitespace skipping json.loads performs between tokens.  Mode mv
reads one value, ml the rest of an array after an element, mo the rest of an
object after a member. -/
def parseF : Nat → PMode → List Char → Option (PRes × List Char)
  | 0, _, _ => none
  | f + 1, .mv, input =>
    if startsCh nullChars input then some (.rv .null, input.drop 4)
    else if startsCh trueChars input then some (.rv (.bool true), input.drop 4)
    else if startsCh falseChars input then some (.rv (.bool false), input.drop 5)
    else if input.head? = some '"' then
      match parseStrBody input.length [] input.tail with
      | none => none
      | some (s, r) => some (.rv (.str s), r)
    else if input.head? = some '[' then
      let r1 := skipWs input.tail
      if r1.head? = some ']' then some (.rv (.arr []), r1.tail)
      else
        match parseF f .mv r1 with
        | some (.rv v, r2) =>
          (match parseF f .ml (skipWs r2) with
           | some (.rl xs, r3) => some (.rv (.arr (v :: xs)), r3)
           | _ => none)
        | _ => none
    else if input.head? = some '{' then
      let r1 := skipWs input.tail
      if r1.head? = some '}' then some (.rv (.obj []), r1.tail)
      else if r1.head? = some '"' then
        match parseStrBody r1.length [] r1.tail with
        | none => none
        | some (k, r2) =>
          let r3 := skipWs r2
          if r3.head? = some ':' then
            match parseF f .mv (skipWs r3.tail) with
            | some (.rv v, r4) =>
              (match parseF f .mo (skipWs r4) with
               | some (.ro kvs, r5) => some (.rv (.obj ((k, v) :: kvs)), r5)
               | _ => none)
            | _ => none
          else none
      else none
    else parseNumber input |>.map (fun p => (.rv p.1, p.2))
  | f + 1, .ml, input =>
    if input.head? = some ']' then some (.rl [], input.tail)
    else if input.head? = some ',' then
      match parseF f .mv (skipWs input.tail) with
      | some (.rv v, r2) =>
        (match parseF f .ml (skipWs r2) with
         | some (.rl xs, r3) => some (.rl (v :: xs), r3)
         | _ => none)
      | _ => none
    else none
  | f + 1, .mo, input =>
    if input.head? = some '}' then some (.ro [], input.tail)
    else if input.head? = some ',' then
      let r1 := skipWs input.tail
      if r1.head? = some '"' then
        match parseStrBody r1.length [] r1.tail with
        | none => none
        | some (k, r2) =>
          let r3 := skipWs r2
          if r3.head? = some ':' then
            match parseF f .mv (skipWs r3.tail) with
            | some (.rv v, r4) =>
              (match parseF f .mo (skipWs r4) with
               | some (.ro kvs, r5) => some (.ro ((k, v) :: kvs), r5)
               | _ => none)
            | _ => none
          else none
      else none
    else none

/-- Model of json.loads on the same fragment: skip leading whitespace, read
one value, require only whitespace to remain; any parse failure models
json.JSONDecodeError, which the callers catch. -/
def loads (s : String) : Option JsonValue :=
  let cs := skipWs s.data
  match parseF (cs.length + 1) .mv cs with
  | some (.rv v, r) => if skipWs r = [] then some v else none
  | _ => none

/-- What may legally follow a complete dumped value: nothing, or a comma or
closing bracket of the enclosing container. -/
def delimOk : List Char → Bool
  | [] => true
  | c :: _ => c = ',' || c = ']' || c = '}'

/-- The unicode scalar bounds of a character, in Nat form. -/
theorem char_toNat_valid (c : Char) : c.toNat < 55296 ∨ (57343 < c.toNat ∧ c.toNat < 1114112) :=
  c.valid

theorem hexVal_hexChar {d : Nat} (h : d < 16) : hexVal (hexChar d) = some d := by
  interval_cases d <;> decide

theorem parseHex4_hex4 {n : Nat} (h : n < 65536) (rest : List Char) :
    parseHex4 (hex4 n ++ rest) = some (n, rest) := by
  have h1 : n / 4096 % 16 < 16 := Nat.mod_lt _ (by omega)
  have h2 : n / 256 % 16 < 16 := Nat.mod_lt _ (by omega)
  have h3 : n / 16 % 16 < 16 := Nat.mod_lt _ (by omega)
  have h4 : n % 16 < 16 := Nat.mod_lt _ (by omega)
  simp only [hex4, List.cons_append, List.nil_append, parseHex4,
    hexVal_hexChar h1, hexVal_hexChar h2, hexVal_hexChar h3, hexVal_hexChar h4]
  congr 1
  congr 1
  omega

theorem isDigitCh_digitChar {n : Nat} (h : n < 10) : isDigitCh (digitChar n) = true := by
  interval_cases n <;> decide

theorem digVal_digitChar {n : Nat} (h : n < 10) : digVal (digitChar n) = n := by
  interval_cases n <;> decide

theorem natCharsAux_digits : ∀ f n, n < f → ∀ c ∈ natCharsAux f n, isDigitCh c = true := by
  intro f
  induction f with
  | zero => omega
  | succ f ih =>
    intro n hn c hc
    by_cases h10 : n < 10
    · simp only [natCharsAux, if_pos h10, List.mem_singleton] at hc
      exact hc ▸ isDigitCh_digitChar h10
    · simp only [natCharsAux, if_neg h10, List.mem_append, List.mem_singleton] at hc
      rcases hc with hc | hc
      · exact ih (n / 10) (by omega) c hc
      · exact hc ▸ isDigitCh_digitChar (Nat.mod_lt _ (by omega))

theorem natCharsAux_ne_nil : ∀ f n, n < f → natCharsAux f n ≠ [] := by
  intro f
  induction f with
  | zero => omega
  | succ f _ =>
    intro n hn
    by_cases h10 : n < 10
    · simp [natCharsAux, if_pos h10]
    · simp [natCharsAux, if_neg h10]

theorem foldDigits_natCharsAux : ∀ f n, n < f → foldDigits (natCharsAux f n) = n := by
  intro f
  induction f with
  | zero => omega
  | succ f ih =>
    intro n hn
    by_cases h10 : n < 10
    · simp only [natCharsAux, if_pos h10, foldDigits, List.foldl_cons, List.foldl_nil,
        Nat.zero_mul, Nat.zero_add]
      exact digVal_digitChar h10
    · have hdiv : n / 10 < f := by
        have hlt : n / 10 < n := Nat.div_lt_self (by omega) (by omega)
        omega
      simp only [natCharsAux, if_neg h10, foldDigits, List.foldl_append, List.foldl_cons,
        List.foldl_nil]
      have := ih (n / 10) hdiv
      simp only [foldDigits] at this
      rw [this, digVal_digitChar (Nat.mod_lt _ (by omega))]
      omega

theorem takeDigits_append :
    ∀ ds r, (∀ c ∈ ds, isDigitCh c = true) → (∀ c, r.head? = some c → isDigitCh c = false) →
      takeDigits (ds ++ r) = (ds, r) := by
  intro ds
  induction ds with
  | nil =>
    intro r _ hr
    match r with
    | [] => rfl
    | c :: cs =>
      have := hr c rfl
      simp [takeDigits, this]
  | cons d ds ih =>
    intro r hds hr
    have hd : isDigitCh d = true := hds d (by simp)
    have := ih r (fun c hc => hds c (by simp [hc])) hr
    simp [takeDigits, hd, this]

theorem delim_head_not_digit {r : List Char} (h : delimOk r = true) :
    ∀ c, r.head? = some c → isDigitCh c = false := by
  intro c hc
  cases r with
  | nil => simp at hc
  | cons c2 cs =>
    rw [List.head?_cons, Option.some.injEq] at hc
    subst hc
    simp only [delimOk, Bool.or_eq_true, decide_eq_true_eq] at h
    rcases h with (h | h) | h <;> (subst h; decide)

theorem delim_not_float {r : List Char} (h : delimOk r = true) : isFloatStart r = false := by
  cases r with
  | nil => rfl
  | cons c cs =>
    simp only [delimOk, Bool.or_eq_true, decide_eq_true_eq] at h
    rcases h with (h | h) | h <;> (subst h; simp [isFloatStart])

theorem parseNatNum_natChars {n : Nat} {r : List Char}
    (hr1 : ∀ c, r.head? = some c → isDigitCh c = false) (hr2 : isFloatStart r = false) :
    parseNatNum (natChars n ++ r) = some (n, r) := by
  have hlt : n < n + 1 := Nat.lt_succ_self n
  have htake := takeDigits_append (natChars n) r (natCharsAux_digits _ n hlt) hr1
  have hne := natCharsAux_ne_nil _ n hlt
  have hfold := foldDigits_natCharsAux _ n hlt
  simp only [natChars] at htake hne hfold
  simp [parseNatNum, natChars, htake, hne, hr2, hfold]

theorem natChars_head (n : Nat) : ∃ c cs, natChars n = c :: cs ∧ isDigitCh c = true := by
  have hlt : n < n + 1 := Nat.lt_succ_self n
  have hne := natCharsAux_ne_nil _ n hlt
  match hx : natCharsAux (n + 1) n with
  | [] => exact absurd hx hne
  | c :: cs =>
    refine ⟨c, cs, hx, ?_⟩
    exact natCharsAux_digits _ n hlt c (by rw [hx]; simp)

theorem ne_of_digit {c x : Char} (hc : isDigitCh c = true) (hx : isDigitCh x = false) : x ≠ c := by
  intro e
  rw [e, hc] at hx
  cases hx

theorem parseNumber_intChars (n : Int) {rest : List Char} (h : delimOk rest = true) :
    parseNumber (intChars n ++ rest) = some (.int n, rest) := by
  have hr1 := delim_head_not_digit h
  have hr2 := delim_not_float h
  by_cases hn : n < 0
  · simp only [intChars, if_pos hn, List.cons_append, parseNumber, List.head?_cons,
      Option.some.injEq, List.tail_cons, if_pos rfl]
    rw [parseNatNum_natChars hr1 hr2]
    simp only [Option.map_some']
    have he : -((n.natAbs : Nat) : Int) = n := by omega
    rw [he]
    simp
  · simp only [intChars, if_neg hn]
    obtain ⟨c, cs, hnc, hcd⟩ := natChars_head n.toNat
    have hne : ¬((natChars n.toNat ++ rest).head? = some '-') := by
      rw [hnc]
      simp only [List.cons_append, List.head?_cons, Option.some.injEq]
      exact fun e => ne_of_digit hcd (by decide) e.symm
    simp only [parseNumber, if_neg hne]
    rw [parseNatNum_natChars hr1 hr2]
    simp only [Option.map_some']
    have he : ((n.toNat : Nat) : Int) = n := by omega
    rw [he]

theorem escapeChar_length_pos (c : Char) : 1 ≤ (escapeChar c).length := by
  simp only [escapeChar]
  split_ifs <;> simp [hex4]

/-- Unfolding of the scanner on a unicode escape, by computation. -/
theorem parseStrBody_u (f : Nat) (acc input3 : List Char) :
    parseStrBody (f + 1) acc ('\\' :: 'u' :: input3) =
      (match parseHex4 input3 with
       | none => none
       | some (n, input4) =>
         if 55296 ≤ n ∧ n ≤ 56319 then
           (match input4 with
            | e2 :: u2 :: input5 =>
              if e2 = '\\' ∧ u2 = 'u' then
                (match parseHex4 input5 with
                 | none => none
                 | some (m, input6) =>
                   if 56320 ≤ m ∧ m ≤ 57343 then
                     parseStrBody f (acc ++ [Char.ofNat (65536 + (n - 55296) * 1024 + (m - 56320))]) input6
                   else none)
              else none
            | _ => none)
         else if 56320 ≤ n ∧ n ≤ 57343 then none
         else parseStrBody f (acc ++ [Char.ofNat n]) input4) := rfl

/-- One scanning step undoes one escaping step, for every character. -/
theorem parseStrBody_escapeChar (f : Nat) (acc rest : List Char) (c : Char) :
    parseStrBody (f + 1) acc (escapeChar c ++ rest) = parseStrBody f (acc ++ [c]) rest := by
  have hval := char_toNat_valid c
  by_cases h1 : c = '"'
  · subst h1; rfl
  by_cases h2 : c = '\\'
  · subst h2; rfl
  by_cases h3 : c = Char.ofNat 8
  · subst h3; rfl
  by_cases h4 : c = Char.ofNat 12
  · subst h4; rfl
  by_cases h5 : c = '\n'
  · subst h5; rfl
  by_cases h6 : c = '\r'
  · subst h6; rfl
  by_cases h7 : c = '\t'
  · subst h7; rfl
  by_cases h8 : c.toNat < 32 ∨ 126 < c.toNat
  · by_cases h9 : c.toNat < 65536
    · have hesc : escapeChar c ++ rest = '\\' :: 'u' :: (hex4 c.toNat ++ rest) := by
        simp [escapeChar, if_neg h1, if_neg h2, if_neg h3, if_neg h4, if_neg h5, if_neg h6,
          if_neg h7, if_pos h8, if_pos h9]
      rw [hesc, parseStrBody_u, parseHex4_hex4 h9]
      dsimp only
      rw [if_neg (by omega), if_neg (by omega), Char.ofNat_toNat]
    · have hH : 55296 + (c.toNat - 65536) / 1024 < 65536 := by omega
      have hLm := Nat.mod_lt (c.toNat - 65536) (show 0 < 1024 by omega)
      have hL : 56320 + (c.toNat - 65536) % 1024 < 65536 := by omega
      have hesc : escapeChar c ++ rest =
          '\\' :: 'u' :: (hex4 (55296 + (c.toNat - 65536) / 1024) ++
            ('\\' :: 'u' :: (hex4 (56320 + (c.toNat - 65536) % 1024) ++ rest))) := by
        simp [escapeChar, if_neg h1, if_neg h2, if_neg h3, if_neg h4, if_neg h5, if_neg h6,
          if_neg h7, if_pos h8, if_neg h9]
      rw [hesc, parseStrBody_u, parseHex4_hex4 hH]
      dsimp only
      rw [if_pos (by omega : 55296 ≤ 55296 + (c.toNat - 65536) / 1024 ∧
        55296 + (c.toNat - 65536) / 1024 ≤ 56319)]
      rw [if_pos (⟨rfl, rfl⟩ : ('\\' : Char) = '\\' ∧ ('u' : Char) = 'u')]
      rw [parseHex4_hex4 hL]
      dsimp only
      rw [if_pos (by omega : 56320 ≤ 56320 + (c.toNat - 65536) % 1024 ∧
        56320 + (c.toNat - 65536) % 1024 ≤ 57343)]
      have hmod := Nat.div_add_mod (c.toNat - 65536) 1024
      have harith : 65536 + (55296 + (c.toNat - 65536) / 1024 - 55296) * 1024 +
          (56320 + (c.toNat - 65536) % 1024 - 56320) = c.toNat := by omega
      rw [harith, Char.ofNat_toNat]
  · have hesc : escapeChar c ++ rest = c :: rest := by
      simp [escapeChar, if_neg h1, if_neg h2, if_neg h3, if_neg h4, if_neg h5, if_neg h6,
        if_neg h7, if_neg h8]
    rw [hesc]
    simp only [parseStrBody]
    rw [if_neg h1, if_neg h2, if_neg (by omega)]

/-- Scanning a fully escaped body up to the closing quote recovers the
original characters. -/
theorem parseStrBody_escList :
    ∀ cs f acc rest, (escList cs).length < f →
      parseStrBody f acc (escList cs ++ '"' :: rest) = some (String.mk (acc ++ cs), rest) := by
  intro cs
  induction cs with
  | nil =>
    intro f acc rest hf
    match f, hf with
    | f + 1, _ =>
      simp [escList, parseStrBody]
  | cons c cs ih =>
    intro f acc rest hf
    have hlen : 1 ≤ (escapeChar c).length := escapeChar_length_pos c
    have hlen2 : (escList (c :: cs)).length = (escapeChar c).length + (escList cs).length := by
      simp [escList]
    match f, hf with
    | f + 1, hf =>
      have hstep := parseStrBody_escapeChar f acc (escList cs ++ '"' :: rest) c
      calc parseStrBody (f + 1) acc (escList (c :: cs) ++ '"' :: rest)
          = parseStrBody (f + 1) acc (escapeChar c ++ (escList cs ++ '"' :: rest)) := by
            simp [escList]
        _ = parseStrBody f (acc ++ [c]) (escList cs ++ '"' :: rest) := hstep
        _ = some (String.mk ((acc ++ [c]) ++ cs), rest) := ih f (acc ++ [c]) rest (by omega)
        _ = some (String.mk (acc ++ c :: cs), rest) := by simp

theorem not_ws_of_digit {c : Char} (h : isDigitCh c = true) : isWsCh c = false := by
  cases hw : isWsCh c with
  | false => rfl
  | true =>
    exfalso
    simp only [isWsCh, Bool.or_eq_true, decide_eq_true_eq] at hw
    rcases hw with ((e | e) | e) | e <;> (subst e; simp [isDigitCh] at h)

/-- The first character of a dumped value is never whitespace and never a
closing bracket. -/
theorem dumpsV_head (v : JsonValue) :
    ∃ c cs, dumpsV v = c :: cs ∧ isWsCh c = false ∧ c ≠ ']' := by
  cases v with
  | null => exact ⟨'n', _, rfl, by decide, by decide⟩
  | bool b => cases b with
    | true => exact ⟨'t', _, rfl, by decide, by decide⟩
    | false => exact ⟨'f', _, rfl, by decide, by decide⟩
  | int n =>
    by_cases hn : n < 0
    · exact ⟨'-', natChars n.natAbs, by simp [dumpsV, intChars, if_pos hn], by decide, by decide⟩
    · obtain ⟨c, cs, hc, hcd⟩ := natChars_head n.toNat
      refine ⟨c, cs, by simp [dumpsV, intChars, if_neg hn, hc], not_ws_of_digit hcd, ?_⟩
      exact fun e => ne_of_digit hcd (by decide) e.symm
  | str s => exact ⟨'"', _, rfl, by decide, by decide⟩
  | arr xs => cases xs with
    | nil => exact ⟨'[', _, rfl, by decide, by decide⟩
    | cons x xs2 => exact ⟨'[', _, rfl, by decide, by decide⟩
  | obj kvs => cases kvs with
    | nil => exact ⟨'{', _, rfl, by decide, by decide⟩
    | cons kv kvs2 =>
      obtain ⟨k, x⟩ := kv
      exact ⟨'{', _, rfl, by decide, by decide⟩

theorem dumpsTL_head (xs : List JsonValue) :
    ∃ c cs, dumpsTL xs = c :: cs ∧ (c = ']' ∨ c = ',') := by
  cases xs with
  | nil => exact ⟨']', [], rfl, Or.inl rfl⟩
  | cons x xs2 => exact ⟨',', _, rfl, Or.inr rfl⟩

theorem dumpsTO_head (kvs : List (String × JsonValue)) :
    ∃ c cs, dumpsTO kvs = c :: cs ∧ (c = '}' ∨ c = ',') := by
  cases kvs with
  | nil => exact ⟨'}', [], rfl, Or.inl rfl⟩
  | cons kv kvs2 =>
    obtain ⟨k, x⟩ := kv
    exact ⟨',', _, rfl, Or.inr rfl⟩

theorem skipWs_cons_not_ws {c : Char} (l : List Char) (h : isWsCh c = false) :
    skipWs (c :: l) = c :: l := by
  simp [skipWs, List.dropWhile_cons, h]

theorem skipWs_space (l : List Char) : skipWs (' ' :: l) = skipWs l := by
  simp [skipWs, List.dropWhile_cons, isWsCh]

theorem skipWs_dumpsV (v : JsonValue) (r : List Char) :
    skipWs (dumpsV v ++ r) = dumpsV v ++ r := by
  obtain ⟨c, cs, hc, hw, _⟩ := dumpsV_head v
  rw [hc, List.cons_append]
  exact skipWs_cons_not_ws _ hw

theorem skipWs_dumpsTL (xs : List JsonValue) (r : List Char) :
    skipWs (dumpsTL xs ++ r) = dumpsTL xs ++ r := by
  obtain ⟨c, cs, hc, hd⟩ := dumpsTL_head xs
  rw [hc, List.cons_append]
  refine skipWs_cons_not_ws _ ?_
  rcases hd with e | e <;> (subst e; decide)

theorem skipWs_dumpsTO (kvs : List (String × JsonValue)) (r : List Char) :
    skipWs (dumpsTO kvs ++ r) = dumpsTO kvs ++ r := by
  obtain ⟨c, cs, hc, hd⟩ := dumpsTO_head kvs
  rw [hc, List.cons_append]
  refine skipWs_cons_not_ws _ ?_
  rcases hd with e | e <;> (subst e; decide)

theorem delimOk_dumpsTL (xs : List JsonValue) (r : List Char) :
    delimOk (dumpsTL xs ++ r) = true := by
  obtain ⟨c, cs, hc, hd⟩ := dumpsTL_head xs
  rw [hc, List.cons_append]
  rcases hd with e | e <;> (subst e; simp [delimOk])

theorem delimOk_dumpsTO (kvs : List (String × JsonValue)) (r : List Char) :
    delimOk (dumpsTO kvs ++ r) = true := by
  obtain ⟨c, cs, hc, hd⟩ := dumpsTO_head kvs
  rw [hc, List.cons_append]
  rcases hd with e | e <;> (subst e; simp [delimOk])

/-- Dispatch of the value parser on a digit or minus head: all keyword,
string, array and object branches fall through to the number reader. -/
theorem parseF_number_head (f : Nat) (c : Char) (cs : List Char)
    (h : isDigitCh c = true ∨ c = '-') :
    parseF (f + 1) .mv (c :: cs) = (parseNumber (c :: cs)).map (fun p => (PRes.rv p.1, p.2)) := by
  have hne : c ≠ 'n' ∧ c ≠ 't' ∧ c ≠ 'f' ∧ c ≠ '"' ∧ c ≠ '[' ∧ c ≠ '{' := by
    rcases h with h | h
    · refine ⟨?_, ?_, ?_, ?_, ?_, ?_⟩ <;>
        exact fun e => by rw [e] at h; simp [isDigitCh] at h
    · subst h
      refine ⟨by decide, by decide, by decide, by decide, by decide, by decide⟩
  have e1 : startsCh nullChars (c :: cs) = false := by
    simp only [nullChars, startsCh]
    rw [if_neg (fun e : ('n' : Char) = c => hne.1 e.symm)]
  have e2 : startsCh trueChars (c :: cs) = false := by
    simp only [trueChars, startsCh]
    rw [if_neg (fun e : ('t' : Char) = c => hne.2.1 e.symm)]
  have e3 : startsCh falseChars (c :: cs) = false := by
    simp only [falseChars, startsCh]
    rw [if_neg (fun e : ('f' : Char) = c => hne.2.2.1 e.symm)]
  simp [parseF, e1, e2, e3, List.head?_cons, hne.2.2.2.1, hne.2.2.2.2.1, hne.2.2.2.2.2]

/-- Unfolding of the value parser on a string head, by computation. -/
theorem parseF_quote (f : Nat) (tl : List Char) :
    parseF (f + 1) .mv ('"' :: tl) =
      (match parseStrBody (tl.length + 1) [] tl with
       | none => none
       | some (s, r) => some (.rv (.str s), r)) := rfl

/-- Unfolding of the value parser on an array head, by computation. -/
theorem parseF_lbrack (f : Nat) (tl : List Char) :
    parseF (f + 1) .mv ('[' :: tl) =
      (if (skipWs tl).head? = some ']' then some (.rv (.arr []), (skipWs tl).tail)
       else
         match parseF f .mv (skipWs tl) with
         | some (.rv v, r2) =>
           (match parseF f .ml (skipWs r2) with
            | some (.rl xs, r3) => some (.rv (.arr (v :: xs)), r3)
            | _ => none)
         | _ => none) := rfl

/-- Unfolding of the value parser on an object head, by computation. -/
theorem parseF_lcurly (f : Nat) (tl : List Char) :
    parseF (f + 1) .mv ('{' :: tl) =
      (if (skipWs tl).head? = some '}' then some (.rv (.obj []), (skipWs tl).tail)
       else if (skipWs tl).head? = some '"' then
         match parseStrBody (skipWs tl).length [] (skipWs tl).tail with
         | none => none
         | some (k, r2) =>
           if (skipWs r2).head? = some ':' then
             match parseF f .mv (skipWs (skipWs r2).tail) with
             | some (.rv v, r4) =>
               (match parseF f .mo (skipWs r4) with
                | some (.ro kvs, r5) => some (.rv (.obj ((k, v) :: kvs)), r5)
                | _ => none)
             | _ => none
           else none
       else none) := rfl

/-- Unfolding of the array-tail parser on a comma, by computation. -/
theorem parseF_ml_comma (f : Nat) (tl : List Char) :
    parseF (f + 1) .ml (',' :: tl) =
      (match parseF f .mv (skipWs tl) with
       | some (.rv v, r2) =>
         (match parseF f .ml (skipWs r2) with
          | some (.rl xs, r3) => some (.rl (v :: xs), r3)
          | _ => none)
       | _ => none) := rfl

/-- Unfolding of the object-tail parser on a comma, by computation. -/
theorem parseF_mo_comma (f : Nat) (tl : List Char) :
    parseF (f + 1) .mo (',' :: tl) =
      (if (skipWs tl).head? = some '"' then
        match parseStrBody (skipWs tl).length [] (skipWs tl).tail with
        | none => none
        | some (k, r2) =>
          if (skipWs r2).head? = some ':' then
            match parseF f .mv (skipWs (skipWs r2).tail) with
            | some (.rv v, r4) =>
              (match parseF f .mo (skipWs r4) with
               | some (.ro kvs, r5) => some (.ro ((k, v) :: kvs), r5)
               | _ => none)
            | _ => none
          else none
       else none) := rfl

/-- Round trip at the parser level: with enough fuel, parsing a dumped value
(or a dumped container tail) consumes exactly the dumped characters and
returns the original value. -/
theorem parseF_dumps : ∀ f : Nat,
    (∀ v rest, (dumpsV v).length < f → delimOk rest = true →
      parseF f .mv (dumpsV v ++ rest) = some (.rv v, rest)) ∧
    (∀ xs rest, (dumpsTL xs).length < f →
      parseF f .ml (dumpsTL xs ++ rest) = some (.rl xs, rest)) ∧
    (∀ kvs rest, (dumpsTO kvs).length < f →
      parseF f .mo (dumpsTO kvs ++ rest) = some (.ro kvs, rest)) := by
  intro f
  induction f with
  | zero =>
    exact ⟨fun v rest h _ => absurd h (by omega), fun xs rest h => absurd h (by omega),
      fun kvs rest h => absurd h (by omega)⟩
  | succ f ih =>
    obtain ⟨ih1, ih2, ih3⟩ := ih
    refine ⟨?_, ?_, ?_⟩
    · intro v rest hlen hrest
      cases v with
      | null => rfl
      | bool b => cases b <;> rfl
      | int n =>
        have hd : ∃ c cs2, intChars n = c :: cs2 ∧ (isDigitCh c = true ∨ c = '-') := by
          by_cases hn : n < 0
          · exact ⟨'-', natChars n.natAbs, by simp [intChars, if_pos hn], Or.inr rfl⟩
          · obtain ⟨c, cs2, hc, hcd⟩ := natChars_head n.toNat
            exact ⟨c, cs2, by simp [intChars, if_neg hn, hc], Or.inl hcd⟩
        obtain ⟨c, cs2, hic, hcd⟩ := hd
        have h1 : dumpsV (.int n) ++ rest = c :: (cs2 ++ rest) := by
          simp [dumpsV, hic]
        rw [h1, parseF_number_head f c (cs2 ++ rest) hcd,
          show c :: (cs2 ++ rest) = intChars n ++ rest by rw [hic]; rfl,
          parseNumber_intChars n hrest]
        rfl
      | str s =>
        have h1 : dumpsV (.str s) ++ rest = '"' :: (escList s.data ++ '"' :: rest) := by
          simp [dumpsV]
        rw [h1, parseF_quote,
          parseStrBody_escList s.data ((escList s.data ++ '"' :: rest).length + 1) [] rest
            (by simp [List.length_append]; omega)]
        rfl
      | arr xs =>
        cases xs with
        | nil => rfl
        | cons x xs2 =>
          simp only [dumpsV, List.length_cons, List.length_append] at hlen
          have h1 : dumpsV (.arr (x :: xs2)) ++ rest = '[' :: (dumpsV x ++ (dumpsTL xs2 ++ rest)) := by
            simp [dumpsV]
          obtain ⟨c, cs2, hc, hw, hnb⟩ := dumpsV_head x
          have hcond : ¬((dumpsV x ++ (dumpsTL xs2 ++ rest)).head? = some ']') := by
            rw [hc, List.cons_append, List.head?_cons]
            exact fun e => hnb (Option.some.inj e)
          rw [h1, parseF_lbrack, skipWs_dumpsV, if_neg hcond,
            ih1 x (dumpsTL xs2 ++ rest) (by omega) (delimOk_dumpsTL xs2 rest)]
          dsimp only
          rw [skipWs_dumpsTL, ih2 xs2 rest (by omega)]
      | obj kvs =>
        cases kvs with
        | nil => rfl
        | cons kv kvs2 =>
          obtain ⟨k, x⟩ := kv
          simp only [dumpsV, List.length_cons, List.length_append] at hlen
          have h1 : dumpsV (.obj ((k, x) :: kvs2)) ++ rest =
              '{' :: ('"' :: (escList k.data ++ '"' ::
                (':' :: ' ' :: (dumpsV x ++ (dumpsTO kvs2 ++ rest))))) := by
            simp [dumpsV]
          rw [h1, parseF_lcurly, skipWs_cons_not_ws _ (by decide)]
          rw [if_neg (show ¬(('"' :: (escList k.data ++ '"' ::
              (':' :: ' ' :: (dumpsV x ++ (dumpsTO kvs2 ++ rest))))).head? = some '}') by
            rw [List.head?_cons]
            exact fun e => absurd (Option.some.inj e) (by decide))]
          rw [if_pos (show ('"' :: (escList k.data ++ '"' ::
              (':' :: ' ' :: (dumpsV x ++ (dumpsTO kvs2 ++ rest))))).head? = some '"' by
            rw [List.head?_cons])]
          simp only [List.length_cons, List.tail_cons, List.head?_cons]
          rw [parseStrBody_escList k.data _ []
            (':' :: ' ' :: (dumpsV x ++ (dumpsTO kvs2 ++ rest)))
            (by simp [List.length_append]; omega)]
          dsimp only
          rw [skipWs_cons_not_ws _ (by decide)]
          rw [if_pos (show ((':' :: ' ' :: (dumpsV x ++ (dumpsTO kvs2 ++ rest))) :
              List Char).head? = some ':' by rw [List.head?_cons])]
          simp only [List.tail_cons]
          rw [skipWs_space, skipWs_dumpsV,
            ih1 x (dumpsTO kvs2 ++ rest) (by omega) (delimOk_dumpsTO kvs2 rest)]
          dsimp only
          rw [skipWs_dumpsTO, ih3 kvs2 rest (by omega)]
          simp
    · intro xs rest hlen
      cases xs with
      | nil => rfl
      | cons x xs2 =>
        simp only [dumpsTL, List.length_cons, List.length_append] at hlen
        have h1 : dumpsTL (x :: xs2) ++ rest = ',' :: (' ' :: (dumpsV x ++ (dumpsTL xs2 ++ rest))) := by
          simp [dumpsTL]
        rw [h1, parseF_ml_comma, skipWs_space, skipWs_dumpsV,
          ih1 x (dumpsTL xs2 ++ rest) (by omega) (delimOk_dumpsTL xs2 rest)]
        dsimp only
        rw [skipWs_dumpsTL, ih2 xs2 rest (by omega)]
    · intro kvs rest hlen
      cases kvs with
      | nil => rfl
      | cons kv kvs2 =>
        obtain ⟨k, x⟩ := kv
        simp only [dumpsTO, List.length_cons, List.length_append] at hlen
        have h1 : dumpsTO ((k, x) :: kvs2) ++ rest =
            ',' :: (' ' :: ('"' :: (escList k.data ++ '"' ::
              (':' :: ' ' :: (dumpsV x ++ (dumpsTO kvs2 ++ rest)))))) := by
          simp [dumpsTO]
        rw [h1, parseF_mo_comma, skipWs_space, skipWs_cons_not_ws _ (by decide)]
        rw [if_pos (show ('"' :: (escList k.data ++ '"' ::
            (':' :: ' ' :: (dumpsV x ++ (dumpsTO kvs2 ++ rest))))).head? = some '"' by
          rw [List.head?_cons])]
        simp only [List.length_cons, List.tail_cons, List.head?_cons]
        rw [parseStrBody_escList k.data _ []
          (':' :: ' ' :: (dumpsV x ++ (dumpsTO kvs2 ++ rest)))
          (by simp [List.length_append]; omega)]
        dsimp only
        rw [skipWs_cons_not_ws _ (by decide)]
        rw [if_pos (show ((':' :: ' ' :: (dumpsV x ++ (dumpsTO kvs2 ++ rest))) :
            List Char).head? = some ':' by rw [List.head?_cons])]
        simp only [List.tail_cons]
        rw [skipWs_space, skipWs_dumpsV,
          ih1 x (dumpsTO kvs2 ++ rest) (by omega) (delimOk_dumpsTO kvs2 rest)]
        dsimp only
        rw [skipWs_dumpsTO, ih3 kvs2 rest (by omega)]
        simp

/-- The JSON round-trip law for the modelled fragment: loads inverts dumps. -/
theorem loads_dumps (v : JsonValue) : loads (dumps v) = some v := by
  have hskip : skipWs (dumpsV v) = dumpsV v := by
    have := skipWs_dumpsV v []
    simpa using this
  have hmain := (parseF_dumps ((dumpsV v).length + 1)).1 v [] (by omega) rfl
  rw [List.append_nil] at hmain
  simp only [loads, dumps, hskip, hmain]
  rfl

end PyJson

namespace CloudUtil

open PyJson

/-- Backend I/O events: one per boto3 S3 request, per requests call to the
Render file service, and per local file open.  Adapter construction emits no
event, matching the sources, where building a boto3 client or a
RenderFileManager performs no I/O. -/
inductive Event : Type where
  | s3Put : String → String → Event
  | s3Get : String → String → Event
  | s3Up : String → String → Event
  | s3Down : String → String → Event
  | s3Head : String → String → Event
  | renderPut : String → Event
  | renderGet : String → Event
  | renderUp : String → Event
  | renderDown : String → Event
  | renderHead : String → Event
  | localRead : String → Event
  | localWrite : String → Event
deriving DecidableEq

/-- The local filesystem: file contents by path, a write-failure policy
(some detail string means open-for-write raises with that message), and the
message str(e) carries when opening a missing path for reading. -/
structure LocalFS : Type where
  files : String → Option String
  writeExn : String → Option String
  missingMsg : String → String

/-- Write one file. -/
def fsSet (fs : LocalFS) (p c : String) : LocalFS :=
  { fs with files := fun q => if q = p then some c else fs.files q }

/-- Response policy of AWS S3 as seen through boto3: for each request, either
success or the detail string of the exception the client raised.  get carries
the stored text on success, download the downloaded content. -/
structure S3World : Type where
  putRes : String → String → Option String
  getRes : String → String → Except String String
  upRes : String → String → Option String
  downRes : String → String → Except String String
  headRes : String → String → Option String

/-- Response policy of the Render file service as seen through requests:
get_object yields the decoded JSON data field (any JSON value, not
necessarily a string) or an exception detail; statusRes is the HTTP status of
a bare GET, or a network exception detail. -/
structure RenderWorld : Type where
  putRes : String → Option String
  getRes : String → String → Except String JsonValue
  upRes : String → Option String
  downRes : String → Except String String
  statusRes : String → Except String Nat

/-- The RenderFileManager constructor state: base URL and the API key header
value, which may be None when the environment variable is absent. -/
structure RenderMgr : Type where
  baseUrl : String
  apiKey : Option String

/-- Message of the TypeError the local write raises inside its try block when
handed a non-string in text mode; the exception is caught there. -/
def writeTypeMsg : String := "write() argument must be str"

/-- Message of the AttributeError content.encode raises inside put_text when
handed a non-string; the exception is caught there. -/
def encodeAttrMsg : String := "object has no attribute encode"

/-- Stand-in for str(json.JSONDecodeError): the callers only test emptiness
and the tag prefix, never the detail text. -/
def jsonDecodeMsg (s : String) : String := "Expecting value: " ++ s

namespace S3Manager

/-- Model of S3Manager.put_text: encode the content, issue PutObject, return
the empty string on success and a tagged message on any exception. -/
def put_text (w : S3World) (bucket key : String) (content : JsonValue) :
    String × List Event :=
  match content with
  | .str _ =>
    (match w.putRes bucket key with
     | none => ("", [Event.s3Put bucket key])
     | some e => ("[AWS Put Error] " ++ e, [Event.s3Put bucket key]))
  | _ => ("[AWS Put Error] " ++ encodeAttrMsg, [])

/-- Model of S3Manager.get_text: GetObject and decode, returning the pair
(content, empty) on success and (none, tagged message) on any exception. -/
def get_text (w : S3World) (bucket key : String) :
    (Option String × String) × List Event :=
  match w.getRes bucket key with
  | .ok c => ((some c, ""), [Event.s3Get bucket key])
  | .error e => ((none, "[AWS Get Error] " ++ e), [Event.s3Get bucket key])

/-- Model of S3Manager.upload_file: boto3 reads the local file and uploads
it; a missing local file raises before any network request. -/
def upload_file (w : S3World) (bucket_name local_file_path s3_file_path : String)
    (fs : LocalFS) : String × List Event :=
  match fs.files local_file_path with
  | none => ("[AWS Upload Error] " ++ fs.missingMsg local_file_path, [])
  | some _ =>
    match w.upRes bucket_name s3_file_path with
    | none => ("", [Event.s3Up bucket_name s3_file_path])
    | some e => ("[AWS Upload Error] " ++ e, [Event.s3Up bucket_name s3_file_path])

/-- Model of S3Manager.download_file: fetch the object and write it locally;
every failure mode is caught and tagged. -/
def download_file (w : S3World) (bucket key local_file_path : String) (fs : LocalFS) :
    (String × LocalFS) × List Event :=
  match w.downRes bucket key with
  | .error e => (("[AWS Download Error] " ++ e, fs), [Event.s3Down bucket key])
  | .ok content =>
    match fs.writeExn local_file_path with
    | none => (("", fsSet fs local_file_path content), [Event.s3Down bucket key])
    | some e => (("[AWS Download Error] " ++ e, fs), [Event.s3Down bucket key])

/-- Model of S3Manager.file_exists: HeadObject in a try block whose bare
except returns False, so the call can never raise. -/
def file_exists (w : S3World) (bucket key : String) : Bool × List Event :=
  match w.headRes bucket key with
  | none => (true, [Event.s3Head bucket key])
  | some _ => (false, [Event.s3Head bucket key])

end S3Manager

namespace RenderFileManager

/-- Model of RenderFileManager.put_object: PUT the JSON envelope, empty
string on 2xx, tagged message on any exception (including raise_for_status). -/
def put_object (_m : RenderMgr) (w : RenderWorld) (disk_path : String)
    (_data : JsonValue) (_data_format : String) : String × List Event :=
  match w.putRes disk_path with
  | none => ("", [Event.renderPut disk_path])
  | some e => ("[Render Put Error] " ++ e, [Event.renderPut disk_path])

/-- Model of RenderFileManager.get_object: GET with the data_format query
parameter, returning the decoded data field of the response body; the service
chooses the shape of that data. -/
def get_object (_m : RenderMgr) (w : RenderWorld) (disk_path data_format : String) :
    (Option JsonValue × String) × List Event :=
  match w.getRes disk_path data_format with
  | .ok d => ((some d, ""), [Event.renderGet disk_path])
  | .error e => ((none, "[Render Get Error] " ++ e), [Event.renderGet disk_path])

/-- Model of RenderFileManager.upload_file: read the whole local file first
(a missing file raises before any request), then PUT the byte list. -/
def upload_file (_m : RenderMgr) (w : RenderWorld) (local_file_path disk_path : String)
    (fs : LocalFS) : String × List Event :=
  match fs.files local_file_path with
  | none => ("[Render Upload Error] " ++ fs.missingMsg local_file_path, [])
  | some _ =>
    match w.upRes disk_path with
    | none => ("", [Event.renderUp disk_path])
    | some e => ("[Render Upload Error] " ++ e, [Event.renderUp disk_path])

/-- Model of RenderFileManager.download_file: GET the byte list and write it
to the local path; every failure mode is caught and tagged. -/
def download_file (_m : RenderMgr) (w : RenderWorld) (disk_path local_file_path : String)
    (fs : LocalFS) : (String × LocalFS) × List Event :=
  match w.downRes disk_path with
  | .error e => (("[Render Download Error] " ++ e, fs), [Event.renderDown disk_path])
  | .ok content =>
    match fs.writeExn local_file_path with
    | none => (("", fsSet fs local_file_path content), [Event.renderDown disk_path])
    | some e => (("[Render Download Error] " ++ e, fs), [Event.renderDown disk_path])

/-- Model of RenderFileManager.file_exists: bare GET of the key path inside a
try block whose bare except returns False; present means exactly status 200. -/
def file_exists (_m : RenderMgr) (w : RenderWorld) (disk_path : String) :
    Bool × List Event :=
  match w.statusRes disk_path with
  | .ok code => (code == 200, [Event.renderHead disk_path])
  | .error _ => (false, [Event.renderHead disk_path])

end RenderFileManager

/-- The Python exceptions that can cross cloud_manager's public boundary:
the EnvironmentError of _initialize_amazon and the TypeError of the
unsupported-format checks on the write path.  All other exceptions are caught
at the adapter boundary and turned into tagged strings. -/
inductive PyExn : Type where
  | environmentError : String → PyExn
  | typeError : String → PyExn
deriving DecidableEq

/-- The untagged message used for an unsupported data_format, both as the
TypeError text raised on the write path and as the error value returned on
the read path. -/
def unsupportedMsg : String := "Unsupported data_format. Only text and json are supported."

/-- The EnvironmentError message of _initialize_amazon. -/
def envErrMsg : String := "One or more Environment Variables not available"

/-- os.environ as an association list; absent keys read as None. -/
def lookupEnv : List (String × String) → String → Option String
  | [], _ => none
  | (k, v) :: rest, key => if k = key then some v else lookupEnv rest key

/-- Model of cloud_manager.get_host: the AWS Lambda marker wins, then the
RENDER flag equal to the string true, else socket.gethostname(). -/
def get_host (env : List (String × String)) (hostname : String) : String :=
  if (lookupEnv env "AWS_LAMBDA_FUNCTION_NAME").isSome then "Amazon"
  else if lookupEnv env "RENDER" = some "true" then "Render"
  else hostname

/-- Model of cloud_manager._initialize_amazon: read the three credential
variables and raise EnvironmentError if any is missing; on success return the
constructed client's key pair and the bucket name. -/
def initialize_amazon (env : List (String × String)) :
    Except PyExn (String × String × String) :=
  match lookupEnv env "AWS_WATCHDOG_ACCESS_KEY", lookupEnv env "AWS_WATCHDOG_SECRET_KEY",
      lookupEnv env "AWS_WATCHDOG_BUCKET" with
  | some a, some s, some b => .ok (a, s, b)
  | _, _, _ => .error (.environmentError envErrMsg)

/-- Model of cloud_manager._initialize_render: no validation at all — the
manager is built even when RENDER_FILE_API_KEY is absent. -/
def initialize_render (env : List (String × String)) : RenderMgr :=
  { baseUrl := "https://file-manager-vist.onrender.com",
    apiKey := lookupEnv env "RENDER_FILE_API_KEY" }

/-- Model of cloud_manager._write_to_amazon: initialise (may raise), convert
json payloads to text or raise TypeError on an unknown format, then put. -/
def write_to_amazon (file_name : String) (data : JsonValue) (data_format : String)
    (env : List (String × String)) (w : S3World) : Except PyExn String × List Event :=
  match initialize_amazon env with
  | .error e => (.error e, [])
  | .ok (_, _, bucket) =>
    if data_format = "json" then
      let r := S3Manager.put_text w bucket file_name (.str (dumps data))
      (.ok r.1, r.2)
    else if data_format ≠ "text" then
      (.error (.typeError unsupportedMsg), [])
    else
      let r := S3Manager.put_text w bucket file_name data
      (.ok r.1, r.2)

/-- Model of cloud_manager._write_to_render: construct the manager (never
fails), convert or raise TypeError, then put_object with data_format text. -/
def write_to_render (file_name : String) (data : JsonValue) (data_format : String)
    (env : List (String × String)) (w : RenderWorld) : Except PyExn String × List Event :=
  let m := initialize_render env
  if data_format = "json" then
    let r := RenderFileManager.put_object m w file_name (.str (dumps data)) "text"
    (.ok r.1, r.2)
  else if data_format ≠ "text" then
    (.error (.typeError unsupportedMsg), [])
  else
    let r := RenderFileManager.put_object m w file_name data "text"
    (.ok r.1, r.2)

/-- Model of cloud_manager._write_to_local: convert or raise TypeError, then
open and write with every OS failure caught and tagged. -/
def write_to_local (file_path : String) (data : JsonValue) (data_format : String)
    (fs : LocalFS) : Except PyExn String × LocalFS × List Event :=
  if data_format = "json" then
    match fs.writeExn file_path with
    | some e => (.ok ("[Local Write Error] " ++ e), fs, [Event.localWrite file_path])
    | none => (.ok "", fsSet fs file_path (dumps data), [Event.localWrite file_path])
  else if data_format ≠ "text" then
    (.error (.typeError unsupportedMsg), fs, [])
  else
    match fs.writeExn file_path with
    | some e => (.ok ("[Local Write Error] " ++ e), fs, [Event.localWrite file_path])
    | none =>
      match data with
      | .str s => (.ok "", fsSet fs file_path s, [Event.localWrite file_path])
      | _ =>
        (.ok ("[Local Write Error] " ++ writeTypeMsg), fsSet fs file_path "",
          [Event.localWrite file_path])

/-- Model of cloud_manager._read_from_amazon: initialise (may raise), read
from the bucket, forward a read error, otherwise apply format conversion; the
unknown-format case is detected only after the read. -/
def read_from_amazon (file_name data_format : String) (env : List (String × String))
    (w : S3World) : Except PyExn (Option JsonValue × String) × List Event :=
  match initialize_amazon env with
  | .error e => (.error e, [])
  | .ok (_, _, bucket) =>
    let r := S3Manager.get_text w bucket file_name
    match r.1 with
    | (none, er) => (.ok (none, er), r.2)
    | (some c, er) =>
      if er ≠ "" then (.ok (none, er), r.2)
      else if data_format = "json" then
        match loads c with
        | some v => (.ok (some v, ""), r.2)
        | none => (.ok (none, "[Amazon Read Error] " ++ jsonDecodeMsg c), r.2)
      else if data_format ≠ "text" then (.ok (none, unsupportedMsg), r.2)
      else (.ok (some (.str c), ""), r.2)

/-- Model of cloud_manager._read_from_render: construct the manager, call
get_object with the caller's format, forward errors; only a str payload is
json-decoded, and a successful non-str payload in json mode falls through to
the unsupported-format branch. -/
def read_from_render (file_name data_format : String) (env : List (String × String))
    (w : RenderWorld) : Except PyExn (Option JsonValue × String) × List Event :=
  let m := initialize_render env
  let r := RenderFileManager.get_object m w file_name data_format
  match r.1 with
  | (none, er) => (.ok (none, er), r.2)
  | (some d, er) =>
    if er ≠ "" then (.ok (none, er), r.2)
    else if data_format = "json" then
      match d with
      | .str s =>
        (match loads s with
         | some v => (.ok (some v, ""), r.2)
         | none => (.ok (none, "[Render Read Error] " ++ jsonDecodeMsg s), r.2))
      | _ => (.ok (none, unsupportedMsg), r.2)
    else if data_format ≠ "text" then (.ok (none, unsupportedMsg), r.2)
    else (.ok (some d, ""), r.2)

/-- Model of cloud_manager._read_from_local: read the file with every OS
failure caught and tagged, then apply format conversion; the unknown-format
case is detected only after the read. -/
def read_from_local (file_path data_format : String) (fs : LocalFS) :
    Except PyExn (Option JsonValue × String) × List Event :=
  match fs.files file_path with
  | none =>
    (.ok (none, "[Local Read Error] " ++ fs.missingMsg file_path), [Event.localRead file_path])
  | some c =>
    if data_format = "json" then
      match loads c with
      | some v => (.ok (some v, ""), [Event.localRead file_path])
      | none => (.ok (none, "[Local Read Error] " ++ jsonDecodeMsg c), [Event.localRead file_path])
    else if data_format ≠ "text" then
      (.ok (none, unsupportedMsg), [Event.localRead file_path])
    else (.ok (some (.str c), ""), [Event.localRead file_path])

/-- Model of cloud_manager._upload_to_amazon.  The source passes
(local_file_path, bucket, file_name) into upload_file(bucket_name,
local_file_path, s3_file_path), so the bucket and the local path are swapped
relative to the adapter's contract; the model reproduces that call as is. -/
def upload_to_amazon (local_file_path file_name : String) (env : List (String × String))
    (w : S3World) (fs : LocalFS) : Except PyExn String × List Event :=
  match initialize_amazon env with
  | .error e => (.error e, [])
  | .ok (_, _, bucket) =>
    let r := S3Manager.upload_file w local_file_path bucket file_name fs
    (.ok r.1, r.2)

/-- Model of cloud_manager._upload_to_render. -/
def upload_to_render (local_file_path file_name : String) (env : List (String × String))
    (w : RenderWorld) (fs : LocalFS) : Except PyExn String × List Event :=
  let m := initialize_render env
  let r := RenderFileManager.upload_file m w local_file_path file_name fs
  (.ok r.1, r.2)

/-- Model of cloud_manager._download_from_amazon. -/
def download_from_amazon (file_name local_file_path : String) (env : List (String × String))
    (w : S3World) (fs : LocalFS) : (Except PyExn String × LocalFS) × List Event :=
  match initialize_amazon env with
  | .error e => ((.error e, fs), [])
  | .ok (_, _, bucket) =>
    let r := S3Manager.download_file w bucket file_name local_file_path fs
    ((.ok r.1.1, r.1.2), r.2)

/-- Model of cloud_manager._download_from_render. -/
def download_from_render (file_name local_file_path : String) (env : List (String × String))
    (w : RenderWorld) (fs : LocalFS) : (Except PyExn String × LocalFS) × List Event :=
  let m := initialize_render env
  let r := RenderFileManager.download_file m w file_name local_file_path fs
  ((.ok r.1.1, r.1.2), r.2)

/-- Model of cloud_manager.put: dispatch on the host string, Local being the
default for every unrecognised value. -/
def put (file_name : String) (data : JsonValue) (host data_format : String)
    (env : List (String × String)) (s3 : S3World) (rw : RenderWorld) (fs : LocalFS) :
    Except PyExn String × LocalFS × List Event :=
  if host = "Amazon" then
    let r := write_to_amazon file_name data data_format env s3
    (r.1, fs, r.2)
  else if host = "Render" then
    let r := write_to_render file_name data data_format env rw
    (r.1, fs, r.2)
  else write_to_local file_name data data_format fs

/-- Model of cloud_manager.get. -/
def get (file_name host data_format : String) (env : List (String × String))
    (s3 : S3World) (rw : RenderWorld) (fs : LocalFS) :
    Except PyExn (Option JsonValue × String) × List Event :=
  if host = "Amazon" then read_from_amazon file_name data_format env s3
  else if host = "Render" then read_from_render file_name data_format env rw
  else read_from_local file_name data_format fs

/-- Model of cloud_manager.upload: the Local branch returns the empty error
immediately, with no file or network operation. -/
def upload (local_file_path file_name host : String) (env : List (String × String))
    (s3 : S3World) (rw : RenderWorld) (fs : LocalFS) : Except PyExn String × List Event :=
  if host = "Amazon" then upload_to_amazon local_file_path file_name env s3 fs
  else if host = "Render" then upload_to_render local_file_path file_name env rw fs
  else (.ok "", [])

/-- Model of cloud_manager.download: the Local branch returns the empty error
immediately, with no file or network operation. -/
def download (file_name local_file_path host : String) (env : List (String × String))
    (s3 : S3World) (rw : RenderWorld) (fs : LocalFS) :
    (Except PyExn String × LocalFS) × List Event :=
  if host = "Amazon" then download_from_amazon file_name local_file_path env s3 fs
  else if host = "Render" then download_from_render file_name local_file_path env rw fs
  else ((.ok "", fs), [])

/-- All three AWS credential variables are set. -/
def awsVarsPresent (env : List (String × String)) : Prop :=
  (lookupEnv env "AWS_WATCHDOG_ACCESS_KEY").isSome ∧
  (lookupEnv env "AWS_WATCHDOG_SECRET_KEY").isSome ∧
  (lookupEnv env "AWS_WATCHDOG_BUCKET").isSome

/-- An error string carrying a bracketed backend tag prefix. -/
def Tagged (s : String) : Prop := s.data.head? = some '['

theorem tagged_append (pre post : String) (h : pre.data.head? = some '[') :
    Tagged (pre ++ post) := by
  unfold Tagged
  rw [String.data_append]
  cases hd : pre.data with
  | nil => rw [hd] at h; simp at h
  | cons a t =>
    rw [hd] at h
    rw [List.head?_cons, Option.some.injEq] at h
    subst h
    simp

/-- A world in which every remote call fails with a connection error and the
local filesystem is empty but writable. -/
def s3W0 : S3World :=
  ⟨fun _ _ => none, fun _ _ => .error "conn", fun _ _ => none,
   fun _ _ => .error "conn", fun _ _ => none⟩

/-- A Render service world in which puts succeed and gets fail. -/
def rwW0 : RenderWorld :=
  ⟨fun _ => none, fun _ _ => .error "conn", fun _ => none,
   fun _ => .error "conn", fun _ => .error "conn"⟩

/-- The empty, writable local filesystem. -/
def fs0 : LocalFS := ⟨fun _ => none, fun _ => none, fun _ => "No such file or directory"⟩

/-- A filesystem holding one text file f. -/
def fsHello : LocalFS :=
  ⟨fun p => if p = "f" then some "hello" else none, fun _ => none,
   fun _ => "No such file or directory"⟩

/-- A filesystem on which every write raises a permission error. -/
def fsDenied : LocalFS := ⟨fun _ => none, fun _ => some "denied", fun _ => "missing"⟩

/-- A Render service world whose get returns an already decoded mapping. -/
def rwNonStr : RenderWorld :=
  ⟨fun _ => none, fun _ _ => .ok (.obj []), fun _ => none,
   fun _ => .error "conn", fun _ => .error "conn"⟩

/-- C5: for every host string other than Amazon and Render (the empty string
and names such as Mystery included), put, get, upload and download dispatch
to the Local filesystem path, and an unknown host is never an error. -/
theorem c5_unknown_host_is_local (host : String) (hA : host ≠ "Amazon") (hR : host ≠ "Render")
    (file_name : String) (data : JsonValue) (data_format local_path : String)
    (env : List (String × String)) (s3 : S3World) (rw : RenderWorld) (fs : LocalFS) :
    put file_name data host data_format env s3 rw fs =
      write_to_local file_name data data_format fs ∧
    get file_name host data_format env s3 rw fs = read_from_local file_name data_format fs ∧
    upload local_path file_name host env s3 rw fs = (.ok "", []) ∧
    download file_name local_path host env s3 rw fs = ((.ok "", fs), []) := by
  refine ⟨?_, ?_, ?_, ?_⟩ <;> simp [put, get, upload, download, hA, hR]

/-- C5 witness: the host string Mystery routes put to the local write path. -/
theorem c5_witness :
    put "notes.txt" (.str "hello world") "Mystery" "text" [] s3W0 rwW0 fs0 =
      write_to_local "notes.txt" (.str "hello world") "text" fs0 ∧
    get "notes.txt" "Mystery" "text" [] s3W0 rwW0 fs0 =
      read_from_local "notes.txt" "text" fs0 ∧
    upload "lp" "notes.txt" "Mystery" [] s3W0 rwW0 fs0 = (.ok "", []) ∧
    download "notes.txt" "lp" "Mystery" [] s3W0 rwW0 fs0 = ((.ok "", fs0), []) :=
  c5_unknown_host_is_local "Mystery" (by decide) (by decide) "notes.txt" (.str "hello world")
    "text" "lp" [] s3W0 rwW0 fs0

/-- C6: upload and download with a host that resolves to the Local backend
return the empty error immediately, perform no file or network operation
(empty event list) and leave the filesystem unchanged. -/
theorem c6_local_upload_download_noop (host : String) (hA : host ≠ "Amazon")
    (hR : host ≠ "Render") (local_path file_name : String) (env : List (String × String))
    (s3 : S3World) (rw : RenderWorld) (fs : LocalFS) :
    upload local_path file_name host env s3 rw fs = (.ok "", []) ∧
    download file_name local_path host env s3 rw fs = ((.ok "", fs), []) := by
  constructor <;> simp [upload, download, hA, hR]

/-- C6 witness. -/
theorem c6_witness :
    upload "/tmp/a" "obj" "myhost" [] s3W0 rwW0 fsHello = (.ok "", []) ∧
    download "obj" "/tmp/a" "myhost" [] s3W0 rwW0 fsHello = ((.ok "", fsHello), []) :=
  c6_local_upload_download_noop "myhost" (by decide) (by decide) "/tmp/a" "obj" [] s3W0 rwW0
    fsHello

/-- C7: host resolution returns Amazon whenever the Lambda marker is present
regardless of anything else, otherwise Render exactly when the RENDER flag is
the string true, otherwise the machine hostname — in that order. -/
theorem c7_get_host_resolution (env : List (String × String)) (hostname : String) :
    ((lookupEnv env "AWS_LAMBDA_FUNCTION_NAME").isSome →
      get_host env hostname = "Amazon") ∧
    (lookupEnv env "AWS_LAMBDA_FUNCTION_NAME" = none →
      lookupEnv env "RENDER" = some "true" → get_host env hostname = "Render") ∧
    (lookupEnv env "AWS_LAMBDA_FUNCTION_NAME" = none →
      lookupEnv env "RENDER" ≠ some "true" → get_host env hostname = hostname) := by
  refine ⟨fun h => ?_, fun h1 h2 => ?_, fun h1 h2 => ?_⟩ <;>
    simp [get_host, *]

/-- C7 witness: with both the Lambda marker and the RENDER flag set, the
Lambda check wins. -/
theorem c7_witness :
    get_host [("AWS_LAMBDA_FUNCTION_NAME", "fn"), ("RENDER", "true")] "box" = "Amazon" :=
  (c7_get_host_resolution [("AWS_LAMBDA_FUNCTION_NAME", "fn"), ("RENDER", "true")] "box").1
    (by decide)

/-- C8: both existence checks are total boolean functions of the backend
outcome (the bare except collapses every failure to false), and the remote
service check is true exactly when the bare GET of the key path returns HTTP
status 200. -/
theorem c8_exists_collapses_failures (m : RenderMgr) (w : S3World) (rw : RenderWorld)
    (bucket key path : String) :
    ((S3Manager.file_exists w bucket key).1 = true ↔ w.headRes bucket key = none) ∧
    ((RenderFileManager.file_exists m rw path).1 = true ↔ rw.statusRes path = .ok 200) := by
  constructor
  · unfold S3Manager.file_exists
    cases w.headRes bucket key <;> simp
  · unfold RenderFileManager.file_exists
    cases h : rw.statusRes path with
    | ok code => simp [Nat.beq_eq_true_eq]
    | error e => simp

/-- C10: a Render get in json mode parses the adapter's value only when that
value is a string; when the service already returned a decoded non-string,
get answers (none, unsupported-format message) despite the empty error. -/
theorem c10_render_json_nonstring (file_name : String) (env : List (String × String))
    (s3 : S3World) (rw : RenderWorld) (fs : LocalFS) (d : JsonValue)
    (hres : rw.getRes file_name "json" = .ok d) :
    (d.isStr = false →
      (get file_name "Render" "json" env s3 rw fs).1 = .ok (none, unsupportedMsg)) ∧
    (∀ s v, d = .str s → loads s = some v →
      (get file_name "Render" "json" env s3 rw fs).1 = .ok (some v, "")) := by
  constructor
  · intro hstr
    simp only [get, read_from_render, RenderFileManager.get_object, hres]
    cases d <;> simp_all [JsonValue.isStr]
  · intro s v hd hl
    subst hd
    simp only [get, read_from_render, RenderFileManager.get_object, hres]
    simp [hl]

/-- C10 witness: the service hands back a decoded mapping with an empty
error, and get reports the unsupported-format message instead of the value. -/
theorem c10_witness :
    (get "f" "Render" "json" [] s3W0 rwNonStr fs0).1 = .ok (none, unsupportedMsg) :=
  (c10_render_json_nonstring "f" [] s3W0 rwNonStr fs0 (.obj []) rfl).1 rfl

/-- C4: the json round-trip law.  put(k, obj, host, json) followed by
get(k, host, json) on the same reachable backend returns obj deep-equal and
an empty error: on the Local path whenever the file write succeeds, on Amazon
whenever credentials are present and the bucket faithfully stores the dumped
text, and on Render whenever the service stores the put and returns the
stored text as a string. -/
theorem c4_json_roundtrip (v : JsonValue) (k : String) (env : List (String × String))
    (s3 : S3World) (rw : RenderWorld) (fs : LocalFS) :
    (∀ host, host ≠ "Amazon" → host ≠ "Render" → fs.writeExn k = none →
      (put k v host "json" env s3 rw fs).1 = .ok "" ∧
      (get k host "json" env s3 rw (put k v host "json" env s3 rw fs).2.1).1 =
        .ok (some v, "")) ∧
    (∀ a s b, lookupEnv env "AWS_WATCHDOG_ACCESS_KEY" = some a →
      lookupEnv env "AWS_WATCHDOG_SECRET_KEY" = some s →
      lookupEnv env "AWS_WATCHDOG_BUCKET" = some b →
      s3.putRes b k = none → s3.getRes b k = .ok (dumps v) →
      (put k v "Amazon" "json" env s3 rw fs).1 = .ok "" ∧
      (get k "Amazon" "json" env s3 rw fs).1 = .ok (some v, "")) ∧
    (rw.putRes k = none → rw.getRes k "json" = .ok (.str (dumps v)) →
      (put k v "Render" "json" env s3 rw fs).1 = .ok "" ∧
      (get k "Render" "json" env s3 rw fs).1 = .ok (some v, "")) := by
  refine ⟨?_, ?_, ?_⟩
  · intro host hA hR hw
    have hput : put k v host "json" env s3 rw fs =
        (.ok "", fsSet fs k (dumps v), [Event.localWrite k]) := by
      simp [put, hA, hR, write_to_local, hw]
    refine ⟨by rw [hput], ?_⟩
    rw [hput]
    simp [get, hA, hR, read_from_local, fsSet, loads_dumps v]
  · intro a s b ha hs hb hput hget
    have hinit : initialize_amazon env = .ok (a, s, b) := by
      simp [initialize_amazon, ha, hs, hb]
    constructor
    · simp [put, write_to_amazon, hinit, S3Manager.put_text, hput]
    · simp [get, read_from_amazon, hinit, S3Manager.get_text, hget, loads_dumps v]
  · intro hput hget
    constructor
    · simp [put, write_to_render, RenderFileManager.put_object, hput]
    · simp [get, read_from_render, RenderFileManager.get_object, hget, loads_dumps v]

/-- C4 witness: a nested object with a non-ASCII string survives the local
round trip on the host string Mystery. -/
theorem c4_witness :
    (put "k" (.obj [("a", .int (-12)), ("b", .arr [.str "hé\n", .bool true, .null]),
        ("c", .obj [])]) "Mystery" "json" [] s3W0 rwW0 fs0).1 = .ok "" ∧
    (get "k" "Mystery" "json" [] s3W0 rwW0
        (put "k" (.obj [("a", .int (-12)), ("b", .arr [.str "hé\n", .bool true, .null]),
          ("c", .obj [])]) "Mystery" "json" [] s3W0 rwW0 fs0).2.1).1 =
      .ok (some (.obj [("a", .int (-12)), ("b", .arr [.str "hé\n", .bool true, .null]),
        ("c", .obj [])]), "") :=
  (c4_json_roundtrip (.obj [("a", .int (-12)), ("b", .arr [.str "hé\n", .bool true, .null]),
      ("c", .obj [])]) "k" [] s3W0 rwW0 fs0).1 "Mystery" (by decide) (by decide) rfl

theorem initialize_amazon_missing {env : List (String × String)}
    (h : lookupEnv env "AWS_WATCHDOG_ACCESS_KEY" = none ∨
      lookupEnv env "AWS_WATCHDOG_SECRET_KEY" = none ∨
      lookupEnv env "AWS_WATCHDOG_BUCKET" = none) :
    initialize_amazon env = .error (.environmentError envErrMsg) := by
  unfold initialize_amazon
  cases h1 : lookupEnv env "AWS_WATCHDOG_ACCESS_KEY" <;>
    cases h2 : lookupEnv env "AWS_WATCHDOG_SECRET_KEY" <;>
      cases h3 : lookupEnv env "AWS_WATCHDOG_BUCKET" <;>
        simp_all

/-- C1 counterexample: with RENDER_FILE_API_KEY absent, a Render put is not
aborted at adapter construction — it succeeds and issues a network call. -/
theorem c1_counterexample :
    lookupEnv [] "RENDER_FILE_API_KEY" = none ∧
    (put "f" (.str "x") "Render" "text" [] s3W0 rwW0 fs0).1 = .ok "" ∧
    (put "f" (.str "x") "Render" "text" [] s3W0 rwW0 fs0).2.2 = [Event.renderPut "f"] :=
  ⟨rfl, rfl, rfl⟩

/-- C1 amended: for host Amazon, a missing credential variable makes all four
operations fail at construction with the EnvironmentError, before any backend
event; for host Render, a missing RENDER_FILE_API_KEY does not abort — the
adapter is built with a null key and put proceeds to the network call. -/
theorem c1_amazon_aborts_render_does_not (env : List (String × String))
    (file_name : String) (data : JsonValue) (data_format local_path : String)
    (s3 : S3World) (rw : RenderWorld) (fs : LocalFS) :
    ((lookupEnv env "AWS_WATCHDOG_ACCESS_KEY" = none ∨
      lookupEnv env "AWS_WATCHDOG_SECRET_KEY" = none ∨
      lookupEnv env "AWS_WATCHDOG_BUCKET" = none) →
      (put file_name data "Amazon" data_format env s3 rw fs).1 =
        .error (.environmentError envErrMsg) ∧
      (put file_name data "Amazon" data_format env s3 rw fs).2.2 = [] ∧
      (get file_name "Amazon" data_format env s3 rw fs).1 =
        .error (.environmentError envErrMsg) ∧
      (get file_name "Amazon" data_format env s3 rw fs).2 = [] ∧
      (upload local_path file_name "Amazon" env s3 rw fs).1 =
        .error (.environmentError envErrMsg) ∧
      (upload local_path file_name "Amazon" env s3 rw fs).2 = [] ∧
      (download file_name local_path "Amazon" env s3 rw fs).1.1 =
        .error (.environmentError envErrMsg) ∧
      (download file_name local_path "Amazon" env s3 rw fs).2 = []) ∧
    (lookupEnv env "RENDER_FILE_API_KEY" = none →
      (∃ s, (put file_name data "Render" "text" env s3 rw fs).1 = .ok s) ∧
      (put file_name data "Render" "text" env s3 rw fs).2.2 = [Event.renderPut file_name]) := by
  constructor
  · intro h
    have hi := initialize_amazon_missing h
    refine ⟨?_, ?_, ?_, ?_, ?_, ?_, ?_, ?_⟩ <;>
      simp [put, get, upload, download, write_to_amazon, read_from_amazon, upload_to_amazon,
        download_from_amazon, hi]
  · intro _
    constructor
    · cases hp : rw.putRes file_name with
      | none => exact ⟨"", by simp [put, write_to_render, RenderFileManager.put_object, hp]⟩
      | some e =>
        exact ⟨"[Render Put Error] " ++ e,
          by simp [put, write_to_render, RenderFileManager.put_object, hp]⟩
    · cases hp : rw.putRes file_name <;>
        simp [put, write_to_render, RenderFileManager.put_object, hp]

/-- C1 witness: env lacking the AWS variables makes an Amazon put abort with
the EnvironmentError, while a Render put with no API key still reaches the
network. -/
theorem c1_witness :
    (put "f" (.str "x") "Amazon" "text" [] s3W0 rwW0 fs0).1 =
      .error (.environmentError envErrMsg) ∧
    (put "f" (.str "x") "Render" "text" [] s3W0 rwW0 fs0).2.2 = [Event.renderPut "f"] :=
  ⟨((c1_amazon_aborts_render_does_not [] "f" (.str "x") "text" "lp" s3W0 rwW0 fs0).1
      (Or.inl rfl)).1,
   ((c1_amazon_aborts_render_does_not [] "f" (.str "x") "text" "lp" s3W0 rwW0 fs0).2 rfl).2⟩

/-- C2 counterexample: a Local get with format xml on an existing file reads
the file (one backend I/O event) before reporting the format error. -/
theorem c2_counterexample :
    (get "f" "Local" "xml" [] s3W0 rwW0 fsHello).2 = [Event.localRead "f"] ∧
    (get "f" "Local" "xml" [] s3W0 rwW0 fsHello).1 = .ok (none, unsupportedMsg) ∧
    [Event.localRead "f"] ≠ ([] : List Event) :=
  ⟨rfl, rfl, by decide⟩

/-- C2 amended: put with a format outside text and json always fails before
any backend I/O with a raised configuration error (TypeError, or the
EnvironmentError when Amazon credentials are missing); get, however, performs
the backend read first — on the Local path with the file present, the
unsupported-format message is returned as a value after one read event. -/
theorem c2_format_error_timing (host file_name : String) (data : JsonValue)
    (data_format : String) (env : List (String × String)) (s3 : S3World)
    (rw : RenderWorld) (fs : LocalFS) (h1 : data_format ≠ "text") (h2 : data_format ≠ "json") :
    ((put file_name data host data_format env s3 rw fs).2.2 = [] ∧
     ∃ e, (put file_name data host data_format env s3 rw fs).1 = .error e) ∧
    (∀ c, fs.files file_name = some c → host ≠ "Amazon" → host ≠ "Render" →
      get file_name host data_format env s3 rw fs =
        (.ok (none, unsupportedMsg), [Event.localRead file_name])) := by
  constructor
  · by_cases hA : host = "Amazon"
    · subst hA
      cases hi : initialize_amazon env with
      | error e =>
        exact ⟨by simp [put, write_to_amazon, hi], e, by simp [put, write_to_amazon, hi]⟩
      | ok t =>
        obtain ⟨a, s, b⟩ := t
        exact ⟨by simp [put, write_to_amazon, hi, h1, h2], .typeError unsupportedMsg,
          by simp [put, write_to_amazon, hi, h1, h2]⟩
    · by_cases hR : host = "Render"
      · subst hR
        exact ⟨by simp [put, write_to_render, h1, h2], .typeError unsupportedMsg,
          by simp [put, write_to_render, h1, h2]⟩
      · exact ⟨by simp [put, hA, hR, write_to_local, h1, h2], .typeError unsupportedMsg,
          by simp [put, hA, hR, write_to_local, h1, h2]⟩
  · intro c hc hA hR
    simp [get, hA, hR, read_from_local, hc, h1, h2]

/-- C2 witness: with format xml, the Local put raises before any event while
the Local get of an existing file reads it first. -/
theorem c2_witness :
    (put "f" (.str "x") "Local" "xml" [] s3W0 rwW0 fsHello).2.2 = [] ∧
    get "f" "Local" "xml" [] s3W0 rwW0 fsHello =
      (.ok (none, unsupportedMsg), [Event.localRead "f"]) :=
  ⟨((c2_format_error_timing "Local" "f" (.str "x") "xml" [] s3W0 rwW0 fsHello
      (by decide) (by decide)).1).1,
   ((c2_format_error_timing "Local" "f" (.str "x") "xml" [] s3W0 rwW0 fsHello
      (by decide) (by decide)).2) "hello" rfl (by decide) (by decide)⟩

/-- C3 counterexample: exceptions do escape the public boundary — an Amazon
put with no credentials raises EnvironmentError, and a Local put with an
unknown format raises TypeError. -/
theorem c3_counterexample :
    (put "f" (.str "x") "Amazon" "text" [] s3W0 rwW0 fs0).1 =
      .error (.environmentError envErrMsg) ∧
    (put "g" (.str "y") "Local" "xml" [] s3W0 rwW0 fs0).1 =
      .error (.typeError unsupportedMsg) :=
  ⟨rfl, rfl⟩

theorem read_from_amazon_ok (file_name data_format : String) (env : List (String × String))
    (w : S3World) {t : String × String × String} (hi : initialize_amazon env = .ok t) :
    ∃ p, (read_from_amazon file_name data_format env w).1 = .ok p := by
  obtain ⟨a, s, b⟩ := t
  unfold read_from_amazon
  rw [hi]
  dsimp only
  rcases hg : (S3Manager.get_text w b file_name).1 with ⟨d, er⟩
  cases d
  · exact ⟨_, rfl⟩
  · dsimp only
    repeat' split
    all_goals exact ⟨_, rfl⟩

theorem read_from_render_ok (file_name data_format : String) (env : List (String × String))
    (w : RenderWorld) : ∃ p, (read_from_render file_name data_format env w).1 = .ok p := by
  unfold read_from_render
  dsimp only
  rcases hg : (RenderFileManager.get_object (initialize_render env) w file_name data_format).1
    with ⟨d, er⟩
  cases d with
  | none => exact ⟨_, rfl⟩
  | some v =>
    dsimp only
    repeat' split
    all_goals exact ⟨_, rfl⟩

theorem read_from_local_ok (file_path data_format : String) (fs : LocalFS) :
    ∃ p, (read_from_local file_path data_format fs).1 = .ok p := by
  unfold read_from_local
  cases hf : fs.files file_path
  · exact ⟨_, rfl⟩
  · dsimp only
    repeat' split
    all_goals exact ⟨_, rfl⟩

/-- C3 amended: with a supported format and, when the host is Amazon, the
credential variables present, no exception crosses the public boundary:
put, upload and download produce an error-string result and get produces a
(data, error) pair, whatever the backends do. -/
theorem c3_no_exception_with_valid_config (env : List (String × String))
    (file_name : String) (data : JsonValue) (host data_format local_path : String)
    (s3 : S3World) (rw : RenderWorld) (fs : LocalFS)
    (hfmt : data_format = "text" ∨ data_format = "json")
    (hcred : host = "Amazon" → awsVarsPresent env) :
    (∃ s, (put file_name data host data_format env s3 rw fs).1 = .ok s) ∧
    (∃ p, (get file_name host data_format env s3 rw fs).1 = .ok p) ∧
    (∃ s, (upload local_path file_name host env s3 rw fs).1 = .ok s) ∧
    (∃ s, (download file_name local_path host env s3 rw fs).1.1 = .ok s) := by
  by_cases hA : host = "Amazon"
  · subst hA
    obtain ⟨ha, hs, hb⟩ := hcred rfl
    obtain ⟨a, ha⟩ := Option.isSome_iff_exists.mp ha
    obtain ⟨s, hs⟩ := Option.isSome_iff_exists.mp hs
    obtain ⟨b, hb⟩ := Option.isSome_iff_exists.mp hb
    have hi : initialize_amazon env = .ok (a, s, b) := by
      simp [initialize_amazon, ha, hs, hb]
    refine ⟨?_, ?_, ?_, ?_⟩
    · rcases hfmt with rfl | rfl
      · exact ⟨(S3Manager.put_text s3 b file_name data).1,
          by simp [put, write_to_amazon, hi]⟩
      · exact ⟨(S3Manager.put_text s3 b file_name (.str (dumps data))).1,
          by simp [put, write_to_amazon, hi]⟩
    · obtain ⟨p, hp⟩ := read_from_amazon_ok file_name data_format env s3 hi
      exact ⟨p, by simp [get, hp]⟩
    · exact ⟨(S3Manager.upload_file s3 local_path b file_name fs).1,
        by simp [upload, upload_to_amazon, hi]⟩
    · exact ⟨(S3Manager.download_file s3 b file_name local_path fs).1.1,
        by simp [download, download_from_amazon, hi]⟩
  · by_cases hR : host = "Render"
    · subst hR
      refine ⟨?_, ?_, ?_, ?_⟩
      · rcases hfmt with rfl | rfl
        · exact ⟨(RenderFileManager.put_object (initialize_render env) rw file_name data
            "text").1, by simp [put, write_to_render]⟩
        · exact ⟨(RenderFileManager.put_object (initialize_render env) rw file_name
            (.str (dumps data)) "text").1, by simp [put, write_to_render]⟩
      · obtain ⟨p, hp⟩ := read_from_render_ok file_name data_format env rw
        exact ⟨p, by simp [get, hp]⟩
      · exact ⟨(RenderFileManager.upload_file (initialize_render env) rw local_path file_name
          fs).1, by simp [upload, upload_to_render]⟩
      · exact ⟨(RenderFileManager.download_file (initialize_render env) rw file_name local_path
          fs).1.1, by simp [download, download_from_render]⟩
    · refine ⟨?_, ?_, ?_, ?_⟩
      · rcases hfmt with rfl | rfl
        · cases hw : fs.writeExn file_name with
          | some e => exact ⟨"[Local Write Error] " ++ e,
              by cases data <;> simp [put, hA, hR, write_to_local, hw]⟩
          | none =>
            cases data with
            | str sdata => exact ⟨"", by simp [put, hA, hR, write_to_local, hw]⟩
            | null => exact ⟨"[Local Write Error] " ++ writeTypeMsg,
                by simp [put, hA, hR, write_to_local, hw]⟩
            | bool _ => exact ⟨"[Local Write Error] " ++ writeTypeMsg,
                by simp [put, hA, hR, write_to_local, hw]⟩
            | int _ => exact ⟨"[Local Write Error] " ++ writeTypeMsg,
                by simp [put, hA, hR, write_to_local, hw]⟩
            | arr _ => exact ⟨"[Local Write Error] " ++ writeTypeMsg,
                by simp [put, hA, hR, write_to_local, hw]⟩
            | obj _ => exact ⟨"[Local Write Error] " ++ writeTypeMsg,
                by simp [put, hA, hR, write_to_local, hw]⟩
        · cases hw : fs.writeExn file_name with
          | some e => exact ⟨"[Local Write Error] " ++ e,
              by simp [put, hA, hR, write_to_local, hw]⟩
          | none => exact ⟨"", by simp [put, hA, hR, write_to_local, hw]⟩
      · obtain ⟨p, hp⟩ := read_from_local_ok file_name data_format fs
        exact ⟨p, by simp [get, hA, hR, hp]⟩
      · exact ⟨"", by simp [upload, hA, hR]⟩
      · exact ⟨"", by simp [download, hA, hR]⟩

/-- C3 witness. -/
theorem c3_witness :
    ∃ s, (put "k" (.str "v") "Mystery" "text" [] s3W0 rwW0 fs0).1 = .ok s :=
  (c3_no_exception_with_valid_config [] "k" (.str "v") "Mystery" "text" "lp" s3W0 rwW0 fs0
    (Or.inl rfl) (fun h => absurd h (by decide))).1

theorem put_text_shape (w : S3World) (b k : String) (c : JsonValue) :
    (S3Manager.put_text w b k c).1 = "" ∨ Tagged (S3Manager.put_text w b k c).1 := by
  cases c with
  | str s =>
    cases hp : w.putRes b k with
    | none => exact Or.inl (by simp [S3Manager.put_text, hp])
    | some e =>
      refine Or.inr ?_
      simp only [S3Manager.put_text, hp]
      exact tagged_append _ _ rfl
  | null => exact Or.inr (tagged_append _ _ rfl)
  | bool x => exact Or.inr (tagged_append _ _ rfl)
  | int x => exact Or.inr (tagged_append _ _ rfl)
  | arr x => exact Or.inr (tagged_append _ _ rfl)
  | obj x => exact Or.inr (tagged_append _ _ rfl)

theorem put_object_shape (m : RenderMgr) (w : RenderWorld) (p : String) (d : JsonValue)
    (fmt : String) :
    (RenderFileManager.put_object m w p d fmt).1 = "" ∨
    Tagged (RenderFileManager.put_object m w p d fmt).1 := by
  cases hp : w.putRes p with
  | none => exact Or.inl (by simp [RenderFileManager.put_object, hp])
  | some e =>
    refine Or.inr ?_
    simp only [RenderFileManager.put_object, hp]
    exact tagged_append _ _ rfl

theorem s3_upload_file_shape (w : S3World) (bn lp sp : String) (fs : LocalFS) :
    (S3Manager.upload_file w bn lp sp fs).1 = "" ∨
    Tagged (S3Manager.upload_file w bn lp sp fs).1 := by
  cases hf : fs.files lp with
  | none =>
    refine Or.inr ?_
    simp only [S3Manager.upload_file, hf]
    exact tagged_append _ _ rfl
  | some c =>
    cases hu : w.upRes bn sp with
    | none => exact Or.inl (by simp [S3Manager.upload_file, hf, hu])
    | some e =>
      refine Or.inr ?_
      simp only [S3Manager.upload_file, hf, hu]
      exact tagged_append _ _ rfl

theorem render_upload_file_shape (m : RenderMgr) (w : RenderWorld) (lp dp : String)
    (fs : LocalFS) :
    (RenderFileManager.upload_file m w lp dp fs).1 = "" ∨
    Tagged (RenderFileManager.upload_file m w lp dp fs).1 := by
  cases hf : fs.files lp with
  | none =>
    refine Or.inr ?_
    simp only [RenderFileManager.upload_file, hf]
    exact tagged_append _ _ rfl
  | some c =>
    cases hu : w.upRes dp with
    | none => exact Or.inl (by simp [RenderFileManager.upload_file, hf, hu])
    | some e =>
      refine Or.inr ?_
      simp only [RenderFileManager.upload_file, hf, hu]
      exact tagged_append _ _ rfl

theorem s3_download_file_shape (w : S3World) (b k lp : String) (fs : LocalFS) :
    (S3Manager.download_file w b k lp fs).1.1 = "" ∨
    Tagged (S3Manager.download_file w b k lp fs).1.1 := by
  cases hd : w.downRes b k with
  | error e =>
    refine Or.inr ?_
    simp only [S3Manager.download_file, hd]
    exact tagged_append _ _ rfl
  | ok content =>
    cases hw : fs.writeExn lp with
    | none => exact Or.inl (by simp [S3Manager.download_file, hd, hw])
    | some e =>
      refine Or.inr ?_
      simp only [S3Manager.download_file, hd, hw]
      exact tagged_append _ _ rfl

theorem render_download_file_shape (m : RenderMgr) (w : RenderWorld) (dp lp : String)
    (fs : LocalFS) :
    (RenderFileManager.download_file m w dp lp fs).1.1 = "" ∨
    Tagged (RenderFileManager.download_file m w dp lp fs).1.1 := by
  cases hd : w.downRes dp with
  | error e =>
    refine Or.inr ?_
    simp only [RenderFileManager.download_file, hd]
    exact tagged_append _ _ rfl
  | ok content =>
    cases hw : fs.writeExn lp with
    | none => exact Or.inl (by simp [RenderFileManager.download_file, hd, hw])
    | some e =>
      refine Or.inr ?_
      simp only [RenderFileManager.download_file, hd, hw]
      exact tagged_append _ _ rfl

theorem write_to_local_ok_shape (p : String) (d : JsonValue) (fmt : String) (fs : LocalFS) :
    ∀ s, (write_to_local p d fmt fs).1 = .ok s → s = "" ∨ Tagged s := by
  intro s h
  unfold write_to_local at h
  by_cases hj : fmt = "json"
  · rw [if_pos hj] at h
    cases hw : fs.writeExn p <;> rw [hw] at h <;> dsimp only at h <;> injection h with h
    · exact Or.inl h.symm
    · exact Or.inr (h ▸ tagged_append _ _ rfl)
  · rw [if_neg hj] at h
    by_cases ht : fmt = "text"
    · rw [if_neg (by simp [ht])] at h
      cases hw : fs.writeExn p <;> rw [hw] at h <;> dsimp only at h
      · cases d <;> dsimp only at h <;> injection h with h
        · exact Or.inr (h ▸ tagged_append _ _ rfl)
        · exact Or.inr (h ▸ tagged_append _ _ rfl)
        · exact Or.inr (h ▸ tagged_append _ _ rfl)
        · exact Or.inl h.symm
        · exact Or.inr (h ▸ tagged_append _ _ rfl)
        · exact Or.inr (h ▸ tagged_append _ _ rfl)
      · injection h with h
        exact Or.inr (h ▸ tagged_append _ _ rfl)
    · rw [if_pos (by simp [ht])] at h
      simp at h

theorem read_from_amazon_err_shape (fn fmt : String) (env : List (String × String))
    (w : S3World) :
    ∀ d er, (read_from_amazon fn fmt env w).1 = .ok (d, er) →
      er = "" ∨ er = unsupportedMsg ∨ Tagged er := by
  intro d er h
  unfold read_from_amazon at h
  cases hi : initialize_amazon env with
  | error e => rw [hi] at h; simp at h
  | ok t =>
    obtain ⟨a, s, b⟩ := t
    rw [hi] at h
    dsimp only at h
    unfold S3Manager.get_text at h
    cases hg : w.getRes b fn with
    | error e =>
      rw [hg] at h
      dsimp only at h
      injection h with h
      obtain ⟨h1, h2⟩ := Prod.mk.inj h
      exact Or.inr (Or.inr (h2 ▸ tagged_append _ _ rfl))
    | ok c =>
      rw [hg] at h
      dsimp only at h
      rw [if_neg (by simp)] at h
      by_cases hjson : fmt = "json"
      · rw [if_pos hjson] at h
        cases hl : loads c <;> rw [hl] at h <;> dsimp only at h <;> injection h with h <;>
          obtain ⟨h1, h2⟩ := Prod.mk.inj h
        · exact Or.inr (Or.inr (h2 ▸ tagged_append _ _ rfl))
        · exact Or.inl h2.symm
      · rw [if_neg hjson] at h
        by_cases htext : fmt = "text"
        · rw [if_neg (by simp [htext])] at h
          injection h with h
          obtain ⟨h1, h2⟩ := Prod.mk.inj h
          exact Or.inl h2.symm
        · rw [if_pos (by simp [htext])] at h
          injection h with h
          obtain ⟨h1, h2⟩ := Prod.mk.inj h
          exact Or.inr (Or.inl h2.symm)

theorem read_from_render_err_shape (fn fmt : String) (env : List (String × String))
    (w : RenderWorld) :
    ∀ d er, (read_from_render fn fmt env w).1 = .ok (d, er) →
      er = "" ∨ er = unsupportedMsg ∨ Tagged er := by
  intro d er h
  unfold read_from_render RenderFileManager.get_object at h
  dsimp only at h
  cases hg : w.getRes fn fmt with
  | error e =>
    rw [hg] at h
    dsimp only at h
    injection h with h
    obtain ⟨h1, h2⟩ := Prod.mk.inj h
    exact Or.inr (Or.inr (h2 ▸ tagged_append _ _ rfl))
  | ok dd =>
    rw [hg] at h
    dsimp only at h
    rw [if_neg (by simp)] at h
    by_cases hjson : fmt = "json"
    · rw [if_pos hjson] at h
      cases dd with
      | str sv =>
        dsimp only at h
        cases hl : loads sv <;> rw [hl] at h <;> dsimp only at h <;> injection h with h <;>
          obtain ⟨h1, h2⟩ := Prod.mk.inj h
        · exact Or.inr (Or.inr (h2 ▸ tagged_append _ _ rfl))
        · exact Or.inl h2.symm
      | null =>
        dsimp only at h
        injection h with h
        obtain ⟨h1, h2⟩ := Prod.mk.inj h
        exact Or.inr (Or.inl h2.symm)
      | bool x =>
        dsimp only at h
        injection h with h
        obtain ⟨h1, h2⟩ := Prod.mk.inj h
        exact Or.inr (Or.inl h2.symm)
      | int x =>
        dsimp only at h
        injection h with h
        obtain ⟨h1, h2⟩ := Prod.mk.inj h
        exact Or.inr (Or.inl h2.symm)
      | arr x =>
        dsimp only at h
        injection h with h
        obtain ⟨h1, h2⟩ := Prod.mk.inj h
        exact Or.inr (Or.inl h2.symm)
      | obj x =>
        dsimp only at h
        injection h with h
        obtain ⟨h1, h2⟩ := Prod.mk.inj h
        exact Or.inr (Or.inl h2.symm)
    · rw [if_neg hjson] at h
      by_cases htext : fmt = "text"
      · rw [if_neg (by simp [htext])] at h
        injection h with h
        obtain ⟨h1, h2⟩ := Prod.mk.inj h
        exact Or.inl h2.symm
      · rw [if_pos (by simp [htext])] at h
        injection h with h
        obtain ⟨h1, h2⟩ := Prod.mk.inj h
        exact Or.inr (Or.inl h2.symm)

theorem read_from_local_err_shape (p fmt : String) (fs : LocalFS) :
    ∀ d er, (read_from_local p fmt fs).1 = .ok (d, er) →
      er = "" ∨ er = unsupportedMsg ∨ Tagged er := by
  intro d er h
  unfold read_from_local at h
  cases hf : fs.files p with
  | none =>
    rw [hf] at h
    dsimp only at h
    injection h with h
    obtain ⟨h1, h2⟩ := Prod.mk.inj h
    exact Or.inr (Or.inr (h2 ▸ tagged_append _ _ rfl))
  | some c =>
    rw [hf] at h
    dsimp only at h
    by_cases hjson : fmt = "json"
    · rw [if_pos hjson] at h
      cases hl : loads c <;> rw [hl] at h <;> dsimp only at h <;> injection h with h <;>
        obtain ⟨h1, h2⟩ := Prod.mk.inj h
      · exact Or.inr (Or.inr (h2 ▸ tagged_append _ _ rfl))
      · exact Or.inl h2.symm
    · rw [if_neg hjson] at h
      by_cases htext : fmt = "text"
      · rw [if_neg (by simp [htext])] at h
        injection h with h
        obtain ⟨h1, h2⟩ := Prod.mk.inj h
        exact Or.inl h2.symm
      · rw [if_pos (by simp [htext])] at h
        injection h with h
        obtain ⟨h1, h2⟩ := Prod.mk.inj h
        exact Or.inr (Or.inl h2.symm)

/-- C9 counterexample: the unsupported-format message returned by get is a
non-empty error without a bracketed tag prefix. -/
theorem c9_counterexample :
    (get "f" "Local" "xml" [] s3W0 rwW0 fsHello).1 = .ok (none, unsupportedMsg) ∧
    unsupportedMsg ≠ "" ∧ unsupportedMsg.data.head? ≠ some '[' :=
  ⟨rfl, by decide, by decide⟩

/-- C9 amended: every non-empty error string returned by put, upload and
download carries a bracketed backend tag prefix; every non-empty error
returned by get is either tagged or is exactly the untagged
unsupported-format message. -/
theorem c9_errors_tagged (host file_name : String) (data : JsonValue)
    (data_format local_path : String) (env : List (String × String)) (s3 : S3World)
    (rw : RenderWorld) (fs : LocalFS) :
    (∀ s, (put file_name data host data_format env s3 rw fs).1 = .ok s → s ≠ "" → Tagged s) ∧
    (∀ d er, (get file_name host data_format env s3 rw fs).1 = .ok (d, er) → er ≠ "" →
      Tagged er ∨ er = unsupportedMsg) ∧
    (∀ s, (upload local_path file_name host env s3 rw fs).1 = .ok s → s ≠ "" → Tagged s) ∧
    (∀ s, (download file_name local_path host env s3 rw fs).1.1 = .ok s → s ≠ "" → Tagged s) := by
  by_cases hA : host = "Amazon"
  · subst hA
    cases hi : initialize_amazon env with
    | error e =>
      refine ⟨?_, ?_, ?_, ?_⟩
      · intro s hs hne
        simp [put, write_to_amazon, hi] at hs
      · intro d er hg hne
        simp [get, read_from_amazon, hi] at hg
      · intro s hs hne
        simp [upload, upload_to_amazon, hi] at hs
      · intro s hs hne
        simp [download, download_from_amazon, hi] at hs
    | ok t =>
      obtain ⟨a, s2, b⟩ := t
      refine ⟨?_, ?_, ?_, ?_⟩
      · intro s hs hne
        have hput : (put file_name data "Amazon" data_format env s3 rw fs).1 =
            (write_to_amazon file_name data data_format env s3).1 := by
          simp [put]
        rw [hput] at hs
        unfold write_to_amazon at hs
        rw [hi] at hs
        dsimp only at hs
        by_cases hjson : data_format = "json"
        · rw [if_pos hjson] at hs
          injection hs with hs
          rcases put_text_shape s3 b file_name (.str (dumps data)) with he | ht
          · exact absurd (hs ▸ he) hne
          · exact hs ▸ ht
        · rw [if_neg hjson] at hs
          by_cases htext : data_format = "text"
          · rw [if_neg (by simp [htext])] at hs
            injection hs with hs
            rcases put_text_shape s3 b file_name data with he | ht
            · exact absurd (hs ▸ he) hne
            · exact hs ▸ ht
          · rw [if_pos (by simp [htext])] at hs
            simp at hs
      · intro d er hg hne
        have : (get file_name "Amazon" data_format env s3 rw fs).1 =
            (read_from_amazon file_name data_format env s3).1 := by
          simp [get]
        rw [this] at hg
        rcases read_from_amazon_err_shape file_name data_format env s3 d er hg with he | hu | ht
        · exact absurd he hne
        · exact Or.inr hu
        · exact Or.inl ht
      · intro s hs hne
        have : (upload local_path file_name "Amazon" env s3 rw fs).1 =
            (upload_to_amazon local_path file_name env s3 fs).1 := by
          simp [upload]
        rw [this] at hs
        unfold upload_to_amazon at hs
        rw [hi] at hs
        dsimp only at hs
        injection hs with hs
        rcases s3_upload_file_shape s3 local_path b file_name fs with he | ht
        · exact absurd (hs ▸ he) hne
        · exact hs ▸ ht
      · intro s hs hne
        have : (download file_name local_path "Amazon" env s3 rw fs).1.1 =
            (download_from_amazon file_name local_path env s3 fs).1.1 := by
          simp [download]
        rw [this] at hs
        unfold download_from_amazon at hs
        rw [hi] at hs
        dsimp only at hs
        injection hs with hs
        rcases s3_download_file_shape s3 b file_name local_path fs with he | ht
        · exact absurd (hs ▸ he) hne
        · exact hs ▸ ht
  · by_cases hR : host = "Render"
    · subst hR
      refine ⟨?_, ?_, ?_, ?_⟩
      · intro s hs hne
        have hput : (put file_name data "Render" data_format env s3 rw fs).1 =
            (write_to_render file_name data data_format env rw).1 := by
          simp [put]
        rw [hput] at hs
        unfold write_to_render at hs
        dsimp only at hs
        by_cases hjson : data_format = "json"
        · rw [if_pos hjson] at hs
          injection hs with hs
          rcases put_object_shape (initialize_render env) rw file_name (.str (dumps data))
              "text" with he | ht
          · exact absurd (hs ▸ he) hne
          · exact hs ▸ ht
        · rw [if_neg hjson] at hs
          by_cases htext : data_format = "text"
          · rw [if_neg (by simp [htext])] at hs
            injection hs with hs
            rcases put_object_shape (initialize_render env) rw file_name data "text"
              with he | ht
            · exact absurd (hs ▸ he) hne
            · exact hs ▸ ht
          · rw [if_pos (by simp [htext])] at hs
            simp at hs
      · intro d er hg hne
        have : (get file_name "Render" data_format env s3 rw fs).1 =
            (read_from_render file_name data_format env rw).1 := by
          simp [get]
        rw [this] at hg
        rcases read_from_render_err_shape file_name data_format env rw d er hg with he | hu | ht
        · exact absurd he hne
        · exact Or.inr hu
        · exact Or.inl ht
      · intro s hs hne
        have : (upload local_path file_name "Render" env s3 rw fs).1 =
            (upload_to_render local_path file_name env rw fs).1 := by
          simp [upload]
        rw [this] at hs
        unfold upload_to_render at hs
        dsimp only at hs
        injection hs with hs
        rcases render_upload_file_shape (initialize_render env) rw local_path file_name fs
          with he | ht
        · exact absurd (hs ▸ he) hne
        · exact hs ▸ ht
      · intro s hs hne
        have : (download file_name local_path "Render" env s3 rw fs).1.1 =
            (download_from_render file_name local_path env rw fs).1.1 := by
          simp [download]
        rw [this] at hs
        unfold download_from_render at hs
        dsimp only at hs
        injection hs with hs
        rcases render_download_file_shape (initialize_render env) rw file_name local_path fs
          with he | ht
        · exact absurd (hs ▸ he) hne
        · exact hs ▸ ht
    · refine ⟨?_, ?_, ?_, ?_⟩
      · intro s hs hne
        have hput : (put file_name data host data_format env s3 rw fs).1 =
            (write_to_local file_name data data_format fs).1 := by
          simp [put, hA, hR]
        rw [hput] at hs
        rcases write_to_local_ok_shape file_name data data_format fs s hs with he | ht
        · exact absurd he hne
        · exact ht
      · intro d er hg hne
        have : (get file_name host data_format env s3 rw fs).1 =
            (read_from_local file_name data_format fs).1 := by
          simp [get, hA, hR]
        rw [this] at hg
        rcases read_from_local_err_shape file_name data_format fs d er hg with he | hu | ht
        · exact absurd he hne
        · exact Or.inr hu
        · exact Or.inl ht
      · intro s hs hne
        have : (upload local_path file_name host env s3 rw fs).1 = .ok "" := by
          simp [upload, hA, hR]
        rw [this] at hs
        injection hs with hs
        exact absurd hs.symm hne
      · intro s hs hne
        have : (download file_name local_path host env s3 rw fs).1.1 = .ok "" := by
          simp [download, hA, hR]
        rw [this] at hs
        injection hs with hs
        exact absurd hs.symm hne

/-- C9 witness: a failing local write returns a non-empty error carrying the
Local tag. -/
theorem c9_witness :
    (put "f" (.str "x") "Local" "text" [] s3W0 rwW0 fsDenied).1 =
      .ok "[Local Write Error] denied" ∧
    Tagged "[Local Write Error] denied" :=
  ⟨rfl,
   (c9_errors_tagged "Local" "f" (.str "x") "text" "lp" [] s3W0 rwW0 fsDenied).1
     "[Local Write Error] denied" rfl (by decide)⟩

end CloudUtil
